import Mathlib

/-!
Verification development for the wagtail-govuk content platform: a shallow
embedding of the content-discovery ingestion pipeline
(`govuk/content_discovery.py`, `govuk/models.py`,
`govuk/management/commands/sync_external_content.py`) and of the federated
search backend (`govuk/search_backend.py`), together with theorems settling
the specified behavioural claims.

Modelling conventions:
- Python strings are Lean `String`s; the Python string methods used by the
  code (`strip`, `lower`, `split`, `in`) are re-implemented character-wise
  (over ASCII whitespace and ASCII case, the fragment the repository's data
  exercises) so that everything evaluates by kernel reduction.
- Python `float` scores and weights are modelled as `ℚ`: every constant the
  code uses (3.5, 2.0, 1.5, 0.5, ...) is dyadic, so the additions performed
  are exact in both models.
- Third-party library calls (`hashlib.sha256`, `django.utils.html.strip_tags`,
  `html.unescape`, `django.utils.dateparse.parse_datetime`,
  `email.utils.parsedate_to_datetime`) are kept abstract as the fields of a
  `PyLib` record; theorems quantify over them. The two date parsers carry the
  exception channels their documentation specifies, `parse_datetime`'s
  `ValueError` for well-formatted but invalid datetimes included.
- Django ORM state is an explicit `Db` value threaded through the operations;
  `datetime` values are `PyDateTime` records carrying a wall-clock value and
  an optional UTC-offset (`none` models a naive datetime).
-/

/-- ASCII whitespace test used to model Python's `str.strip` / `str.split`. -/
def pyIsSpace (c : Char) : Bool :=
  c = ' ' || c = '\t' || c = '\n' || c = '\r' || c = '\x0b' || c = '\x0c'

/-- Model of Python `str.strip()` (drop leading and trailing whitespace). -/
def pyStrip (s : String) : String :=
  String.mk (((s.data.dropWhile pyIsSpace).reverse.dropWhile pyIsSpace).reverse)

/-- ASCII lowering of one character, modelling Python `str.lower` on the
ASCII fragment. -/
def pyLowerChar (c : Char) : Char :=
  if 'A' ≤ c ∧ c ≤ 'Z' then Char.ofNat (c.toNat + 32) else c

/-- Model of Python `str.lower()`. -/
def pyLower (s : String) : String :=
  String.mk (s.data.map pyLowerChar)

/-- Does `pat` occur at the head of `s`? (helper for the substring test). -/
def charsMatchAt : List Char → List Char → Bool
  | [], _ => true
  | _ :: _, [] => false
  | a :: as, b :: bs => a = b && charsMatchAt as bs

/-- Does `pat` occur anywhere in `s`? (helper for the substring test). -/
def charsContain (pat : List Char) : List Char → Bool
  | [] => pat.isEmpty
  | b :: bs => charsMatchAt pat (b :: bs) || charsContain pat bs

/-- Model of Python's substring containment `pat in s`. -/
def pyIn (pat s : String) : Bool :=
  charsContain pat.data s.data

/-- Accumulator form of Python `str.split()` with no separator: split on runs
of whitespace, returning no empty words. -/
def pySplitAux : List Char → List Char → List String
  | [], acc => if acc.isEmpty then [] else [String.mk acc.reverse]
  | c :: cs, acc =>
    if pyIsSpace c then
      if acc.isEmpty then pySplitAux cs [] else String.mk acc.reverse :: pySplitAux cs []
    else pySplitAux cs (c :: acc)

/-- Model of Python `str.split()` (no argument). -/
def pySplit (s : String) : List String :=
  pySplitAux s.data []

/-- Model of Python `" ".join(words)`. -/
def joinSpace (ws : List String) : String :=
  match ws with
  | [] => ""
  | w :: rest => rest.foldl (fun acc x => acc ++ " " ++ x) w

/-- Model of Python's `a or b` on strings (empty string is falsy). -/
def pyOrS (a b : String) : String :=
  if a = "" then b else a

/-- A Python `datetime`: a wall-clock instant (an abstract integer reading of
the wall-clock fields) and an optional UTC-offset in minutes. `tz = none`
models a naive datetime. -/
structure PyDateTime where
  wall : Int
  tz : Option Int
  deriving DecidableEq, Repr

/-- Model of `django.utils.timezone.is_naive`. -/
def is_naive (dt : PyDateTime) : Bool :=
  dt.tz = Option.none

/-- Model of `django.utils.timezone.make_aware(dt, UTC)` on a naive value:
attach the UTC timezone without changing the wall-clock fields. -/
def make_aware_utc (dt : PyDateTime) : PyDateTime :=
  { dt with tz := some 0 }

/-- Model of `dt.astimezone(UTC)` on an aware value: shift the wall clock by
the source offset and attach offset 0. (The naive branch is never reached by
`_parse_timestamp`, which makes the value aware first.) -/
def astimezone_utc (dt : PyDateTime) : PyDateTime :=
  match dt.tz with
  | some off => { wall := dt.wall - off, tz := some 0 }
  | Option.none => { wall := dt.wall, tz := some 0 }

/-- The third-party library functions the repository calls, kept abstract.
`isoParse` models `django.utils.dateparse.parse_datetime` under its documented
contract: `Except.ok none` for input that is not well formatted,
`Except.ok (some dt)` on success, and `Except.error ()` for the `ValueError`
it raises on input that is well formatted but not a valid datetime (such as
`2024-02-31T00:00`). `rfcParse` models `email.utils.parsedate_to_datetime`
(raises on failure, modelled by `Except Unit`); `stripTags` models
`django.utils.html.strip_tags`; `unescape` models `html.unescape`;
`sha256hex` models `hashlib.sha256(...).hexdigest()`. -/
structure PyLib where
  sha256hex : String → String
  stripTags : String → String
  unescape : String → String
  isoParse : String → Except Unit (Option PyDateTime)
  rfcParse : String → Except Unit PyDateTime

/-- Model of `_parse_timestamp` (content_discovery.py lines 100-114): strip the
input; blank input gives `none`; try the ISO-8601 parser first, then the
RFC-822 parser with its exceptions caught as `none`; make a naive result aware
as UTC; convert the result to UTC. The call to the ISO parser at line 105 sits
outside any try/except, so a `ValueError` it raises propagates to the caller —
the result type carries that uncaught error path. -/
def parse_timestamp (lib : PyLib) (value : String) :
    Except Unit (Option PyDateTime) :=
  let v := pyStrip value
  if v = "" then Except.ok Option.none
  else
    match lib.isoParse v with
    | Except.error e => Except.error e
    | Except.ok isoRes =>
      let dtOpt : Option PyDateTime :=
        match isoRes with
        | some dt => some dt
        | Option.none =>
          match lib.rfcParse v with
          | Except.ok dt => some dt
          | Except.error _ => Option.none
      match dtOpt with
      | Option.none => Except.ok Option.none
      | some dt =>
        let dt := if is_naive dt then make_aware_utc dt else dt
        Except.ok (some (astimezone_utc dt))

/-- The value space of the per-item `metadata` mapping (strings, lists of
strings, integers, nested string maps, or Python `None`). -/
inductive MetaValue where
  | nullv
  | strv (s : String)
  | listv (vs : List String)
  | intv (n : Int)
  | dictv (kvs : List (String × String))
  deriving DecidableEq, Repr

/-- Does the metadata pruning test `value in (None, "", [], {})` hold?
(content_discovery.py lines 445-449 keep only values outside that tuple). -/
def metaIsPrunedValue : MetaValue → Bool
  | MetaValue.nullv => true
  | MetaValue.strv s => s = ""
  | MetaValue.listv vs => vs.isEmpty
  | MetaValue.intv _ => false
  | MetaValue.dictv kvs => kvs.isEmpty

/-- Model of the `FeedEntry` dataclass (content_discovery.py lines 29-41). -/
structure FeedEntry where
  format : String
  url : String
  title : String
  summary : String
  created_at : Option PyDateTime
  updated_at : Option PyDateTime
  entry_id : String
  author_names : List String
  published_raw : String
  updated_raw : String
  metadata : List (String × MetaValue) := []
  deriving DecidableEq, Repr

/-- An `xml.etree.ElementTree` element: qualified tag (namespaces spelled
`{ns}name`), attributes, leading text, children, and trailing text. Python's
`None` text/tail is conflated with `""`, which `_element_text`'s join-and-strip
cannot distinguish. -/
inductive XmlElem where
  | mk (tag : String) (attrs : List (String × String)) (text : String)
      (children : List XmlElem) (tail : String)

/-- Tag of an element. -/
def XmlElem.tag : XmlElem → String
  | XmlElem.mk t _ _ _ _ => t

/-- Attributes of an element. -/
def XmlElem.attrs : XmlElem → List (String × String)
  | XmlElem.mk _ a _ _ _ => a

/-- Leading text of an element. -/
def XmlElem.text : XmlElem → String
  | XmlElem.mk _ _ t _ _ => t

/-- Children of an element. -/
def XmlElem.children : XmlElem → List XmlElem
  | XmlElem.mk _ _ _ c _ => c

/-- Trailing text of an element. -/
def XmlElem.tail : XmlElem → String
  | XmlElem.mk _ _ _ _ t => t

mutual
/-- Model of `"".join(node.itertext())`: the element's text followed by each
child's collected text and tail, in document order. -/
def iterText : XmlElem → String
  | XmlElem.mk _ _ text children _ => text ++ iterTextList children

/-- Collected text of a list of sibling elements (helper for `iterText`). -/
def iterTextList : List XmlElem → String
  | [] => ""
  | c :: cs => iterText c ++ c.tail ++ iterTextList cs
end

/-- Model of `_local_name` (content_discovery.py lines 55-56): the part of the
tag after the last `\x7d`, lowercased. -/
def local_name (tag : String) : String :=
  pyLower (String.mk ((tag.data.reverse.takeWhile (fun c => c ≠ '\x7d')).reverse))

/-- Model of `_qualified_name` (content_discovery.py lines 59-62). -/
def qualified_name (name ns : String) : String :=
  if ns = "" then name else "\x7b" ++ ns ++ "\x7d" ++ name

/-- Does the tag start with `\x7b` (so that it carries an explicit XML
namespace)? Models `root.tag.startswith("{")`. -/
def startsWithBrace (tag : String) : Bool :=
  match tag.data with
  | c :: _ => c = '\x7b'
  | [] => false

/-- Model of `root.tag[1:].split("}", 1)[0]`: the namespace URI inside the
braces of a qualified tag. -/
def xml_namespace_of (tag : String) : String :=
  String.mk ((tag.data.drop 1).takeWhile (fun c => c ≠ '\x7d'))

/-- Model of `_element_text` (content_discovery.py lines 65-71). -/
def element_text (lib : PyLib) : Option XmlElem → String
  | Option.none => ""
  | some node =>
    let text := pyStrip (iterText node)
    if text = "" then "" else lib.unescape text

/-- Model of `Element.find`: the first direct child with the given tag. -/
def xmlFind (node : XmlElem) (name : String) : Option XmlElem :=
  node.children.find? (fun c => c.tag == name)

/-- Model of `Element.findall`: all direct children with the given tag. -/
def xmlFindAll (node : XmlElem) (name : String) : List XmlElem :=
  node.children.filter (fun c => c.tag == name)

/-- Model of `node.attrib.get(key) or dflt`: attribute lookup where a missing
or empty value falls back to the default. -/
def xmlAttrOr (node : XmlElem) (key dflt : String) : String :=
  match node.attrs.find? (fun p => p.1 == key) with
  | some p => if p.2 = "" then dflt else p.2
  | Option.none => dflt

/-- Model of `_find_text` (content_discovery.py lines 74-75). -/
def find_text (lib : PyLib) (node : XmlElem) (name ns : String) : String :=
  element_text lib (xmlFind node (qualified_name name ns))

/-- The Atom XML namespace constant (content_discovery.py line 20). -/
def ATOM_NAMESPACE : String := "http://www.w3.org/2005/Atom"

/-- Model of `_entry_link` (content_discovery.py lines 117-128): prefer the
first link with a non-empty `href` and `rel="alternate"` (a missing or empty
`rel` defaults to `alternate`), else the first link with a non-empty `href`,
else the empty string. -/
def entry_link (entry_node : XmlElem) (ns : String) : String :=
  let link_nodes := xmlFindAll entry_node (qualified_name "link" ns)
  match link_nodes.find? (fun ln =>
      pyStrip (xmlAttrOr ln "href" "") ≠ "" ∧
        pyLower (pyStrip (xmlAttrOr ln "rel" "alternate")) = "alternate") with
  | some ln => pyStrip (xmlAttrOr ln "href" "")
  | Option.none =>
    match link_nodes.find? (fun ln => pyStrip (xmlAttrOr ln "href" "") ≠ "") with
    | some ln => pyStrip (xmlAttrOr ln "href" "")
    | Option.none => ""

/-- The distinguishable exception kinds escaping `_parse_atom_root`: a
`ContentDiscoveryError` raised by its own guards, carrying its message, or an
uncaught `ValueError` propagating from `_parse_timestamp`'s ISO parse. -/
inductive ParseErr where
  | contentDiscoveryError (msg : String)
  | valueError
  deriving DecidableEq, Repr

/-- One `<entry>` of an Atom feed turned into a `FeedEntry`
(content_discovery.py lines 153-186). The two `_parse_timestamp` calls run in
order; a `ValueError` raised by either propagates out of the entry. -/
def parse_atom_entry (lib : PyLib) (ns : String) (entry_node : XmlElem) :
    Except Unit FeedEntry :=
  let url := entry_link entry_node ns
  let title := find_text lib entry_node "title" ns
  let summary0 := find_text lib entry_node "summary" ns
  let summary := if summary0 = "" then find_text lib entry_node "content" ns else summary0
  let published_raw := find_text lib entry_node "published" ns
  let updated_raw0 := find_text lib entry_node "updated" ns
  let updated_raw := if updated_raw0 = "" then published_raw else updated_raw0
  match parse_timestamp lib (pyOrS published_raw updated_raw) with
  | Except.error e => Except.error e
  | Except.ok created_at =>
    match parse_timestamp lib (pyOrS updated_raw published_raw) with
    | Except.error e => Except.error e
    | Except.ok updated_at =>
      Except.ok
        { format := "atom"
          url := url
          title := title
          summary := summary
          created_at := created_at
          updated_at := updated_at
          entry_id := pyOrS (find_text lib entry_node "id" ns) url
          author_names :=
            ((xmlFindAll entry_node (qualified_name "author" ns)).map
              (fun a => find_text lib a "name" ns)).filter (fun nm => nm ≠ "")
          published_raw := published_raw
          updated_raw := updated_raw
          metadata := [] }

/-- The entry loop of `_parse_atom_root` (content_discovery.py lines 152-186):
entries accumulate in document order and the first exception raised while
parsing an entry aborts the loop. -/
def parse_atom_entries (lib : PyLib) (ns : String) :
    List XmlElem → Except Unit (List FeedEntry)
  | [] => Except.ok []
  | en :: rest =>
    match parse_atom_entry lib ns en with
    | Except.error e => Except.error e
    | Except.ok fe =>
      match parse_atom_entries lib ns rest with
      | Except.error e => Except.error e
      | Except.ok fes => Except.ok (fe :: fes)

/-- The namespace `_parse_atom_root` computes for an accepted root
(content_discovery.py lines 144-146): the tag's explicit namespace when the
tag starts with `\x7b`, otherwise the empty namespace. -/
def rootNs (root : XmlElem) : String :=
  if startsWithBrace root.tag then xml_namespace_of root.tag else ""

/-- Model of `_parse_atom_root` (content_discovery.py lines 138-188): reject a
root whose lowercased local name is not `feed`; when the tag carries an
explicit namespace, reject any namespace other than the Atom one; otherwise
parse each direct `<entry>` child, with an uncaught `ValueError` from an
entry's timestamp parse propagating out of the function. -/
def parse_atom_root (lib : PyLib) (root : XmlElem) :
    Except ParseErr (List FeedEntry) :=
  if local_name root.tag ≠ "feed" then
    Except.error (ParseErr.contentDiscoveryError
      "Unsupported content type: expected an Atom <feed> document.")
  else if startsWithBrace root.tag ∧ xml_namespace_of root.tag ≠ ATOM_NAMESPACE then
    Except.error (ParseErr.contentDiscoveryError
      "Unsupported XML namespace. Only Atom feeds are supported currently.")
  else
    match parse_atom_entries lib (rootNs root)
        (xmlFindAll root (qualified_name "entry" (rootNs root))) with
    | Except.error _ => Except.error ParseErr.valueError
    | Except.ok entries => Except.ok entries

/-- Model of the `ContentDiscoverySource` model (models.py lines 208-302).
Each `default_tags` stream block is represented by the tag id that
`_extract_tag_id` recovers from its value (`none` when extraction fails);
`default_tag_raw_blocks` plays the same role for the raw stream data used by
the fallback loop of `get_default_tag_ids`. -/
structure ContentDiscoverySource where
  id : Int
  name : String
  url : String
  disable_tls_verification : Bool
  default_tag_blocks : List (Option Int)
  default_tag_raw_blocks : List (Option Int)
  deriving DecidableEq, Repr

/-- One step of the tag-id collection loop of `get_default_tag_ids`
(models.py lines 280-284): append a truthy, not-yet-seen extracted id. -/
def collectTagStep (acc : List Int) (b : Option Int) : List Int :=
  match b with
  | Option.none => acc
  | some tid => if tid ≠ 0 ∧ tid ∉ acc then acc ++ [tid] else acc

/-- One collection pass of `get_default_tag_ids` (models.py lines 276-294):
append each truthy, not-yet-seen id in block order. -/
def collectTagIds (blocks : List (Option Int)) : List Int :=
  blocks.foldl collectTagStep []

/-- Model of `ContentDiscoverySource.get_default_tag_ids` (models.py lines
276-294): collect ids from resolved block values, falling back to the raw
stream data when that yields none. -/
def get_default_tag_ids (s : ContentDiscoverySource) : List Int :=
  let tag_ids := collectTagIds s.default_tag_blocks
  if tag_ids.isEmpty then collectTagIds s.default_tag_raw_blocks else tag_ids

/-- Model of `ContentDiscoverySource.get_default_tags` (models.py lines
296-302), with each `GovukTag` row represented by its primary key:
keep the ids, in order, that exist in the tag table. -/
def get_default_tags (tag_table : List Int) (s : ContentDiscoverySource) : List Int :=
  (get_default_tag_ids s).filter (fun tid => tid ∈ tag_table)

/-- Model of an `ExternalContentItem` row (models.py lines 322-430). `tags`
holds the tag ids attached through `ExternalContentItemTag` rows, in insertion
order; `first_seen_at`/`last_seen_at` are the `auto_now_add`/`auto_now`
timestamps. -/
structure ExternalContentItem where
  key : String
  url : String
  source_id : Option Int
  title : String
  summary : String
  published_at : Option PyDateTime
  created_at : Option PyDateTime
  updated_at : Option PyDateTime
  tags : List Int
  hidden : Bool
  metadata : List (String × MetaValue)
  first_seen_at : Int
  last_seen_at : Int
  deriving DecidableEq, Repr

/-- The persistent store the operations run against: the
`ExternalContentItem` rows plus the primary keys of the `GovukTag` rows. -/
structure Db where
  items : List ExternalContentItem
  tag_table : List Int
  deriving DecidableEq, Repr

/-- Model of `ExternalContentItem.build_key` (models.py lines 396-397):
SHA-256 hex digest of the trimmed URL. -/
def build_key (lib : PyLib) (url : String) : String :=
  lib.sha256hex (pyStrip url)

/-- Replace the first element satisfying `p` by `x` (how an ORM `save` of a
fetched row lands back in the table model). -/
def replaceFirst (p : ExternalContentItem → Bool) (x : ExternalContentItem) :
    List ExternalContentItem → List ExternalContentItem
  | [] => []
  | y :: ys => if p y then x :: ys else y :: replaceFirst p x ys

/-- The default-tag attachment step of `upsert_from_url` (models.py lines
414-429): for a present source, attach each default tag whose id is not
already attached, appending the new `ExternalContentItemTag` rows. -/
def applyDefaultTags (tag_table : List Int) (source : Option ContentDiscoverySource)
    (item : ExternalContentItem) : ExternalContentItem :=
  match source with
  | Option.none => item
  | some s =>
    let source_tags := get_default_tags tag_table s
    if source_tags.isEmpty then item
    else
      let rows_to_add := source_tags.filter (fun tid => tid ∉ item.tags)
      { item with tags := item.tags ++ rows_to_add }

/-- The field overwrite `update_or_create` performs on an existing row
(models.py lines 409-413) combined with the `save` override (models.py lines
399-402): set `source`, `title`, `summary`, the three source timestamps and
`metadata`; re-trim the URL, recompute `key`, and stamp `last_seen_at := now`
(`auto_now`). `hidden`, `tags` and `first_seen_at` are left untouched. -/
def upsert_row_update (lib : PyLib) (now : Int) (normalized_url : String)
    (source : Option ContentDiscoverySource) (title summary : String)
    (published_at created_at updated_at : Option PyDateTime)
    (metadata : List (String × MetaValue)) (it0 : ExternalContentItem) :
    ExternalContentItem :=
  { it0 with
    source_id := source.map (fun s => s.id)
    title := title
    summary := summary
    published_at := published_at
    created_at := created_at
    updated_at := updated_at
    metadata := metadata
    url := pyStrip normalized_url
    key := build_key lib normalized_url
    last_seen_at := now }

/-- The row `update_or_create` creates when no row matches (models.py lines
409-413) combined with the `save` override: the caller's fields, defaults
`hidden = false` and no tags, `first_seen_at := now` (`auto_now_add`) and
`last_seen_at := now` (`auto_now`). -/
def upsert_row_create (lib : PyLib) (now : Int) (normalized_url : String)
    (source : Option ContentDiscoverySource) (title summary : String)
    (published_at created_at updated_at : Option PyDateTime)
    (metadata : List (String × MetaValue)) : ExternalContentItem :=
  { key := build_key lib normalized_url
    url := pyStrip normalized_url
    source_id := source.map (fun s => s.id)
    title := title
    summary := summary
    published_at := published_at
    created_at := created_at
    updated_at := updated_at
    tags := []
    hidden := false
    metadata := metadata
    first_seen_at := now
    last_seen_at := now }

/-- Model of `ExternalContentItem.upsert_from_url` (models.py lines 407-430):
resolve the row by trimmed URL; overwrite the provided fields on the found
row or create a new row; then attach the source's default tags. -/
def upsert_from_url (lib : PyLib) (db : Db) (now : Int) (url : String)
    (source : Option ContentDiscoverySource) (title summary : String)
    (published_at created_at updated_at : Option PyDateTime)
    (metadata : List (String × MetaValue)) : Db :=
  let normalized_url := pyStrip url
  match db.items.find? (fun it => it.url == normalized_url) with
  | some it0 =>
    let it2 := applyDefaultTags db.tag_table source
      (upsert_row_update lib now normalized_url source title summary
        published_at created_at updated_at metadata it0)
    { db with items := replaceFirst (fun it => it.url == normalized_url) it2 db.items }
  | Option.none =>
    let it2 := applyDefaultTags db.tag_table source
      (upsert_row_create lib now normalized_url source title summary
        published_at created_at updated_at metadata)
    { db with items := db.items ++ [it2] }

/-- Model of `SearchBackend._external_content_queryset` (search_backend.py
lines 465-474): the non-hidden items, optionally narrowed to items whose
source belongs to the requested site or that have no source at all.
`source_site` maps a source id to the site id of its owning settings. -/
def external_content_queryset (source_site : Int → Option Int) (db : Db)
    (site : Option Int) : List ExternalContentItem :=
  let base := db.items.filter (fun it => it.hidden = false)
  match site with
  | Option.none => base
  | some sid =>
    base.filter (fun it =>
      match it.source_id with
      | Option.none => true
      | some src => source_site src = some sid)

/-- Model of the `SourceSyncResult` dataclass (content_discovery.py lines
44-52). -/
structure SourceSyncResult where
  source_id : Int
  source_label : String
  source_url : String
  total_entries : Nat := 0
  created : Nat := 0
  updated : Nat := 0
  skipped : Nat := 0
  deriving DecidableEq, Repr

/-- Model of Python `dict.update`: entries of `upd` override entries of `base`
in place, new keys are appended in order. -/
def dictUpdate (base upd : List (String × MetaValue)) : List (String × MetaValue) :=
  upd.foldl
    (fun acc kv =>
      if acc.any (fun p => p.1 = kv.1) then
        acc.map (fun p => if p.1 = kv.1 then (p.1, kv.2) else p)
      else acc ++ [kv])
    base

/-- The metadata dictionary built for one entry by the sync loop
(content_discovery.py lines 437-449): bookkeeping fields, overridden and
extended by the entry's own metadata, with falsy values pruned. -/
def buildEntryMetadata (entry : FeedEntry) : List (String × MetaValue) :=
  let base : List (String × MetaValue) :=
    [("format", MetaValue.strv entry.format),
     ("entry_id", MetaValue.strv entry.entry_id),
     ("author_names", MetaValue.listv entry.author_names),
     ("published_raw", MetaValue.strv entry.published_raw),
     ("updated_raw", MetaValue.strv entry.updated_raw)]
  (dictUpdate base entry.metadata).filter (fun kv => ¬ metaIsPrunedValue kv.2)

/-- The loop state of `sync_content_discovery_source` (content_discovery.py
lines 417-468): the store being written, the result counters, the mutable
`existing_urls` snapshot and the in-pass `seen_urls` set (both kept as lists
in insertion order). -/
structure SyncState where
  db : Db
  result : SourceSyncResult
  existing_urls : List String
  seen_urls : List String

/-- One iteration of the sync loop (content_discovery.py lines 429-467):
count the entry; skip it when its trimmed URL is blank or already seen in
this pass; otherwise upsert it and classify it as updated when the trimmed
URL is in `existing_urls` (adding it there when counted as created). -/
def sync_entry_step (lib : PyLib) (source : ContentDiscoverySource) (now : Int)
    (st : SyncState) (entry : FeedEntry) : SyncState :=
  let result := { st.result with total_entries := st.result.total_entries + 1 }
  let entry_url := pyStrip entry.url
  if entry_url = "" ∨ entry_url ∈ st.seen_urls then
    { st with result := { result with skipped := result.skipped + 1 } }
  else
    let seen_urls := st.seen_urls ++ [entry_url]
    let db := upsert_from_url lib st.db now entry_url (some source) entry.title
      entry.summary entry.created_at entry.created_at entry.updated_at
      (buildEntryMetadata entry)
    if entry_url ∈ st.existing_urls then
      { db := db
        result := { result with updated := result.updated + 1 }
        existing_urls := st.existing_urls
        seen_urls := seen_urls }
    else
      { db := db
        result := { result with created := result.created + 1 }
        existing_urls := st.existing_urls ++ [entry_url]
        seen_urls := seen_urls }

/-- The `existing_urls` snapshot taken once before the loop
(content_discovery.py lines 422-426): the stored URLs among the entries' raw
URLs. -/
def existingUrlsSnapshot (db : Db) (entries : List FeedEntry) : List String :=
  (db.items.map (fun it => it.url)).filter
    (fun u => entries.any (fun e => e.url == u))

/-- Model of `sync_content_discovery_source` after fetch and parse have
produced `entries` (content_discovery.py lines 417-468): run the counting and
upsert loop over a store, with `now` standing for the wall-clock time stamped
onto the saves of this pass. `str(source)` is `name or url`. -/
def sync_source_entries (lib : PyLib) (source : ContentDiscoverySource) (db : Db)
    (now : Int) (entries : List FeedEntry) : Db × SourceSyncResult :=
  let result0 : SourceSyncResult :=
    { source_id := source.id
      source_label := pyOrS source.name source.url
      source_url := source.url }
  let final := entries.foldl (sync_entry_step lib source now)
    { db := db
      result := result0
      existing_urls := existingUrlsSnapshot db entries
      seen_urls := [] }
  (final.db, final.result)

/-- Model of `sync_content_discovery_sources` (content_discovery.py lines
471-477): a list comprehension over the sources, so the first
`ContentDiscoveryError` raised by `sync_content_discovery_source` (here an
abstract per-source behaviour `syncOne`) propagates and abandons the
remaining sources. -/
def sync_content_discovery_sources
    (syncOne : ContentDiscoverySource → Except String SourceSyncResult) :
    List ContentDiscoverySource → Except String (List SourceSyncResult)
  | [] => Except.ok []
  | s :: rest =>
    match syncOne s with
    | Except.error e => Except.error e
    | Except.ok r =>
      match sync_content_discovery_sources syncOne rest with
      | Except.error e => Except.error e
      | Except.ok rs => Except.ok (r :: rs)

/-- The running totals of the `sync_external_content` management command
(sync_external_content.py line 48). -/
structure HandleTotals where
  entries : Nat := 0
  created : Nat := 0
  updated : Nat := 0
  skipped : Nat := 0
  deriving DecidableEq, Repr

/-- The loop state of `Command.handle` (sync_external_content.py lines 48-66):
totals, recorded failures, stdout lines and stderr lines. -/
structure HandleState where
  totals : HandleTotals := {}
  failures : List String := []
  out : List String := []
  err : List String := []
  deriving DecidableEq, Repr

/-- The label the command prints for a source (sync_external_content.py line
52): `source.name or source.url`. -/
def command_source_label (s : ContentDiscoverySource) : String :=
  pyOrS s.name s.url

/-- One iteration of the command's per-source loop (sync_external_content.py
lines 51-66): announce the source; on a `ContentDiscoveryError` record the
failure with the source's identity and continue; on success accumulate the
totals and print the per-source summary. -/
def handle_source_step
    (syncOne : ContentDiscoverySource → Except String SourceSyncResult)
    (st : HandleState) (source : ContentDiscoverySource) : HandleState :=
  let label := command_source_label source
  let sid := toString source.id
  let st := { st with out := st.out ++ ["Syncing source " ++ sid ++ ": " ++ label] }
  match syncOne source with
  | Except.error exc =>
    { st with
      failures := st.failures ++ [sid ++ " (" ++ label ++ "): " ++ exc]
      err := st.err ++ ["  Failed source " ++ sid ++ ": " ++ exc] }
  | Except.ok r =>
    { st with
      totals :=
        { entries := st.totals.entries + r.total_entries
          created := st.totals.created + r.created
          updated := st.totals.updated + r.updated
          skipped := st.totals.skipped + r.skipped }
      out := st.out ++
        ["  Processed " ++ toString r.total_entries ++ ", created " ++
          toString r.created ++ ", updated " ++ toString r.updated ++
          ", skipped " ++ toString r.skipped] }

/-- The batch loop of `Command.handle` (sync_external_content.py lines 51-66)
over an already-filtered, ordered source list. -/
def command_handle_loop
    (syncOne : ContentDiscoverySource → Except String SourceSyncResult)
    (sources : List ContentDiscoverySource) : HandleState :=
  sources.foldl (handle_source_step syncOne) {}

/-- Model of the `SearchResultItem` dataclass (search_backend.py lines 23-32),
with `score` as an exact rational and breadcrumbs as (title, url) pairs. -/
structure SearchResultItem where
  title : String
  search_description : String
  url : String
  score : ℚ := 0
  breadcrumbs : List (String × String) := []
  tags : List String := []
  source_name : String := ""
  last_updated : Option PyDateTime := Option.none
  deriving DecidableEq, Repr

/-- Model of `SearchBackend._clean_text` (search_backend.py lines 557-560):
a falsy (missing or empty) value gives `""`; otherwise strip markup and
collapse whitespace runs to single spaces. -/
def clean_text (lib : PyLib) (value : Option String) : String :=
  match value with
  | Option.none => ""
  | some s => if s = "" then "" else joinSpace (pySplit (lib.stripTags s))

/-- The loop body of `SearchBackend._text_relevance` (search_backend.py lines
656-664), processing one weighted field: clean and lowercase the text, skip
it when empty, add `2.0 × weight` when the whole lowercased query occurs in
it and `0.5 × weight` for every query term that occurs in it. The lowercased
query and its term list are recomputed here; the source computes them once
before the loop, which is equivalent since they are pure. -/
def relevance_field_step (lib : PyLib) (query : String) (score : ℚ)
    (vw : Option String × ℚ) : ℚ :=
  let query_lower := pyLower query
  let terms := (pySplit query_lower).filter (fun t => t ≠ "")
  let text := pyLower (clean_text lib vw.1)
  if text = "" then score
  else
    let score1 := if pyIn query_lower text then score + 2 * vw.2 else score
    terms.foldl
      (fun sc term => if pyIn term text then sc + (1 / 2 : ℚ) * vw.2 else sc)
      score1

/-- Model of `SearchBackend._text_relevance` (search_backend.py lines
649-665): fold the per-field step over the weighted values starting from
zero. -/
def text_relevance (lib : PyLib) (query : String)
    (weighted_values : List (Option String × ℚ)) : ℚ :=
  weighted_values.foldl (relevance_field_step lib query) 0

/-- The comparison `key(a) < key(b)` for the sort key
`(-item.score, item.title.lower())` of `_merge_results` (search_backend.py
line 640). -/
def resultSortKeyLt (a b : SearchResultItem) : Bool :=
  decide (b.score < a.score) ||
    (decide (a.score = b.score) && decide (pyLower a.title < pyLower b.title))

/-- Insert an element into an already-sorted list, after every element whose
key is not strictly greater — together with a left fold this reproduces the
stable order of Python's `sorted`. -/
def insertSorted (x : SearchResultItem) :
    List SearchResultItem → List SearchResultItem
  | [] => [x]
  | y :: ys => if resultSortKeyLt x y then x :: y :: ys else y :: insertSorted x ys

/-- Model of `sorted(results, key=lambda item: (-item.score,
item.title.lower()))` (search_backend.py line 640): a stable sort by score
descending with the lowercased title as tiebreak. -/
def pySorted (l : List SearchResultItem) : List SearchResultItem :=
  l.foldl (fun acc x => insertSorted x acc) []

/-- The deduplication key `(item.title.lower(), item.url)` (search_backend.py
line 641). -/
def itemKey (it : SearchResultItem) : String × String :=
  (pyLower it.title, it.url)

/-- The seen-set loop of `_merge_results` (search_backend.py lines 640-646):
walk the sorted list, dropping any item whose key was already emitted. -/
def mergeLoop : List SearchResultItem → List (String × String) →
    List SearchResultItem
  | [], _ => []
  | item :: rest, seen =>
    if itemKey item ∈ seen then mergeLoop rest seen
    else item :: mergeLoop rest (itemKey item :: seen)

/-- Model of `SearchBackend._merge_results` (search_backend.py lines
636-647). -/
def merge_results (results : List SearchResultItem) : List SearchResultItem :=
  mergeLoop (pySorted results) []

/-- Specification-side counting for claim C1: process the entries in order
against a fixed snapshot of pre-existing URLs; an entry is skipped when its
trimmed URL is blank or equal to the trimmed URL of an earlier non-skipped
entry, and otherwise counted as updated or created according to snapshot
membership alone. Returns (created, updated, skipped). -/
def spec_counts (snapshot : List String) (seen : List String) :
    List FeedEntry → Nat × Nat × Nat
  | [] => (0, 0, 0)
  | e :: rest =>
    let u := pyStrip e.url
    if u = "" ∨ u ∈ seen then
      let c := spec_counts snapshot seen rest
      (c.1, c.2.1, c.2.2 + 1)
    else
      let c := spec_counts snapshot (u :: seen) rest
      if u ∈ snapshot then (c.1, c.2.1 + 1, c.2.2) else (c.1 + 1, c.2.1, c.2.2)

/-- Specification-side per-field contribution for claim C2: nothing for an
empty cleaned field, otherwise the whole-phrase bonus plus half a weight per
matching term. -/
def field_contribution (lib : PyLib) (query : String)
    (vw : Option String × ℚ) : ℚ :=
  let text := pyLower (clean_text lib vw.1)
  if text = "" then 0
  else
    (if pyIn (pyLower query) text then 2 * vw.2 else 0) +
      (1 / 2 : ℚ) * vw.2 *
        (((pySplit (pyLower query)).filter (fun t => t ≠ "")).filter
          (fun term => pyIn term text)).length

/-- Specification-side deduplication for claim C3: keep the first occurrence
of every `(lowercased title, url)` key, dropping all later ones. -/
def dedupByKeyFirst : List SearchResultItem → List SearchResultItem
  | [] => []
  | x :: xs => x :: dedupByKeyFirst (xs.filter (fun y => itemKey y ≠ itemKey x))
termination_by l => l.length
decreasing_by
  simp only [List.length_cons]
  exact Nat.lt_succ_of_le (List.length_filter_le _ _)

/-- The intended order of merged results for claim C3: score descending,
with the lowercased title ascending as tiebreak. -/
def resultKeyLe (a b : SearchResultItem) : Prop :=
  b.score < a.score ∨ (a.score = b.score ∧ pyLower a.title ≤ pyLower b.title)

/-- A concrete library behaviour used by witnesses and counterexamples:
identity text transforms, an ISO parser recognising exactly one naive
datetime string, and an RFC parser that always raises. -/
def libA : PyLib :=
  { sha256hex := fun s => s
    stripTags := fun s => s
    unescape := fun s => s
    isoParse := fun s =>
      if s = "2024-01-02" then Except.ok (some ⟨100, Option.none⟩)
      else Except.ok Option.none
    rfcParse := fun _ => Except.error () }

/-- A concrete library behaviour reflecting the documented contract of
Django's `parse_datetime` on one input: it raises `ValueError` for the
well-formatted but invalid datetime string `2024-02-31T00:00` (day 31 of
February) and recognises nothing else; the RFC parser always raises. -/
def libDjango : PyLib :=
  { sha256hex := fun s => s
    stripTags := fun s => s
    unescape := fun s => s
    isoParse := fun s =>
      if s = "2024-02-31T00:00" then Except.error ()
      else Except.ok Option.none
    rfcParse := fun _ => Except.error () }

/-- An un-namespaced `<feed>` root with no entries. -/
def plainFeedRoot : XmlElem := XmlElem.mk "feed" [] "" [] ""

/-- A `<feed>` root qualified with the Atom namespace. -/
def atomFeedRoot : XmlElem :=
  XmlElem.mk ("\x7b" ++ ATOM_NAMESPACE ++ "\x7dfeed") [] "" [] ""

/-- The stdout lines the command's loop produces for one source: the
progress line, then the per-source success summary when the sync succeeded. -/
def sourceOutLines (syncOne : ContentDiscoverySource → Except String SourceSyncResult)
    (s : ContentDiscoverySource) : List String :=
  ["Syncing source " ++ toString s.id ++ ": " ++ command_source_label s] ++
    (match syncOne s with
     | Except.ok r =>
       ["  Processed " ++ toString r.total_entries ++ ", created " ++
         toString r.created ++ ", updated " ++ toString r.updated ++
         ", skipped " ++ toString r.skipped]
     | Except.error _ => [])

/-- Concatenation of the per-source stdout lines over a source list. -/
def allOutLines (syncOne : ContentDiscoverySource → Except String SourceSyncResult) :
    List ContentDiscoverySource → List String
  | [] => []
  | s :: rest => sourceOutLines syncOne s ++ allOutLines syncOne rest

/-- The entry count a source contributes to the command's totals: its result
counts on success, nothing on failure. -/
def okCount (syncOne : ContentDiscoverySource → Except String SourceSyncResult)
    (f : SourceSyncResult → Nat) (s : ContentDiscoverySource) : Nat :=
  match syncOne s with
  | Except.ok r => f r
  | Except.error _ => 0

/-- The declarative per-source description of the command loop's final state:
one progress line (plus a success summary) per source on stdout, one recorded
failure carrying the source's id and label per failing source, one stderr
line per failing source, and totals summed over the succeeding sources. -/
def handleSpec (syncOne : ContentDiscoverySource → Except String SourceSyncResult)
    (sources : List ContentDiscoverySource) : HandleState :=
  { totals :=
      { entries := (sources.map (okCount syncOne (fun r => r.total_entries))).sum
        created := (sources.map (okCount syncOne (fun r => r.created))).sum
        updated := (sources.map (okCount syncOne (fun r => r.updated))).sum
        skipped := (sources.map (okCount syncOne (fun r => r.skipped))).sum }
    failures := sources.filterMap (fun s =>
      match syncOne s with
      | Except.error e =>
        some (toString s.id ++ " (" ++ command_source_label s ++ "): " ++ e)
      | Except.ok _ => Option.none)
    out := allOutLines syncOne sources
    err := sources.filterMap (fun s =>
      match syncOne s with
      | Except.error e => some ("  Failed source " ++ toString s.id ++ ": " ++ e)
      | Except.ok _ => Option.none) }

/-- Pointwise combination of two command-loop states (used to state the fold
invariant). -/
def combineHandle (a b : HandleState) : HandleState :=
  { totals :=
      { entries := a.totals.entries + b.totals.entries
        created := a.totals.created + b.totals.created
        updated := a.totals.updated + b.totals.updated
        skipped := a.totals.skipped + b.totals.skipped }
    failures := a.failures ++ b.failures
    out := a.out ++ b.out
    err := a.err ++ b.err }

/-- A configured source used in concrete batch scenarios. -/
def srcA : ContentDiscoverySource :=
  { id := 1
    name := "Blog"
    url := "https://a.example/feed"
    disable_tls_verification := false
    default_tag_blocks := []
    default_tag_raw_blocks := [] }

/-- A second configured source used in concrete batch scenarios. -/
def srcB : ContentDiscoverySource :=
  { id := 2
    name := ""
    url := "https://b.example/feed"
    disable_tls_verification := false
    default_tag_blocks := []
    default_tag_raw_blocks := [] }

/-- A per-source sync behaviour that fails on the first source and succeeds
on every other. -/
def syncFailFirst (s : ContentDiscoverySource) : Except String SourceSyncResult :=
  if s.id = 1 then Except.error "Could not fetch 'https://a.example/feed': boom"
  else Except.ok
    { source_id := s.id
      source_label := command_source_label s
      source_url := s.url
      total_entries := 3
      created := 1
      updated := 1
      skipped := 1 }

/-- A minimal feed entry carrying only a URL, used in concrete scenarios. -/
def mkEntry (u : String) : FeedEntry :=
  { format := "atom"
    url := u
    title := "Title"
    summary := ""
    created_at := Option.none
    updated_at := Option.none
    entry_id := u
    author_names := []
    published_raw := ""
    updated_raw := ""
    metadata := [] }

/-- An empty content store with no tags. -/
def emptyDb : Db := { items := [], tag_table := [] }

/-- A source carrying default tag stream blocks, one of which repeats and one
of which refers to a tag that does not exist in the tag table. -/
def srcTags : ContentDiscoverySource :=
  { id := 3
    name := "Tagged"
    url := "https://t.example/feed"
    disable_tls_verification := false
    default_tag_blocks := [some 5, Option.none, some 7, some 5, some 9]
    default_tag_raw_blocks := [] }

/-- A store holding tag rows 5 and 7 only. -/
def dbTags : Db := { items := [], tag_table := [5, 7] }

/-- One recorded call to the upsert engine (the write the sync loop performs
for one entry). -/
structure UpsertCall where
  now : Int
  url : String
  source : Option ContentDiscoverySource
  title : String
  summary : String
  published_at : Option PyDateTime
  created_at : Option PyDateTime
  updated_at : Option PyDateTime
  metadata : List (String × MetaValue)

/-- Replay a sequence of upsert calls against a store (any number of
re-syncs touching any URLs). -/
def applyUpserts (lib : PyLib) : Db → List UpsertCall → Db
  | db, [] => db
  | db, c :: cs =>
    applyUpserts lib
      (upsert_from_url lib db c.now c.url c.source c.title c.summary
        c.published_at c.created_at c.updated_at c.metadata) cs

/-- A stored item an editor has hidden. -/
def hiddenItem : ExternalContentItem :=
  { key := "k"
    url := "https://h.example/x"
    source_id := Option.none
    title := "Hidden item"
    summary := ""
    published_at := Option.none
    created_at := Option.none
    updated_at := Option.none
    tags := []
    hidden := true
    metadata := []
    first_seen_at := 0
    last_seen_at := 0 }

/-- A store holding only the hidden item. -/
def hiddenDb : Db := { items := [hiddenItem], tag_table := [] }

/-- A re-sync upsert call that touches the hidden item's URL. -/
def resyncCall : UpsertCall :=
  { now := 5
    url := "https://h.example/x"
    source := some srcA
    title := "Fresh title"
    summary := "fresh"
    published_at := Option.none
    created_at := Option.none
    updated_at := Option.none
    metadata := [] }

/-- The astimezone conversion always lands on UTC (offset 0). -/
theorem astimezone_utc_tz (dt : PyDateTime) : (astimezone_utc dt).tz = some 0 := by
  cases h : dt.tz <;> simp [astimezone_utc, h]

/-- C5 (amended): the timestamp normalizer returns no timestamp for blank
input; it consults the ISO parser first — when that parser raises (as
Django's `parse_datetime` does for a well-formatted but invalid datetime),
the exception propagates uncaught, so the function is not exception-free;
when the ISO parser recognises nothing, the RFC-822 parser is tried with its
exceptions caught as no timestamp; every successfully parsed result carries
the UTC offset, with a naive ISO result read as UTC with its wall clock
unchanged. -/
theorem parse_timestamp_contract (lib : PyLib) (value : String) :
    (pyStrip value = "" → parse_timestamp lib value = Except.ok Option.none) ∧
    (∀ e, pyStrip value ≠ "" → lib.isoParse (pyStrip value) = Except.error e →
      parse_timestamp lib value = Except.error e) ∧
    (lib.isoParse (pyStrip value) = Except.ok Option.none →
      lib.rfcParse (pyStrip value) = Except.error () →
      parse_timestamp lib value = Except.ok Option.none) ∧
    (∀ dt, pyStrip value ≠ "" →
      lib.isoParse (pyStrip value) = Except.ok (some dt) →
      parse_timestamp lib value = Except.ok
        (some (astimezone_utc (if is_naive dt then make_aware_utc dt else dt)))) ∧
    (∀ dt, parse_timestamp lib value = Except.ok (some dt) → dt.tz = some 0) ∧
    (∀ w, pyStrip value ≠ "" →
      lib.isoParse (pyStrip value) = Except.ok (some ⟨w, Option.none⟩) →
      parse_timestamp lib value = Except.ok (some ⟨w, some 0⟩)) := by
  refine ⟨?_, ?_, ?_, ?_, ?_, ?_⟩
  · intro h
    simp [parse_timestamp, h]
  · intro e hb h1
    simp [parse_timestamp, hb, h1]
  · intro h1 h2
    by_cases hb : pyStrip value = ""
    · simp [parse_timestamp, hb]
    · simp [parse_timestamp, hb, h1, h2]
  · intro dt hb h1
    simp [parse_timestamp, hb, h1]
  · intro dt h
    by_cases hb : pyStrip value = ""
    · simp [parse_timestamp, hb] at h
    · rcases hiso : lib.isoParse (pyStrip value) with e | isoRes
      · simp [parse_timestamp, hb, hiso] at h
      · rcases isoRes with _ | d
        · rcases hrfc : lib.rfcParse (pyStrip value) with e | d
          · cases e
            simp [parse_timestamp, hb, hiso, hrfc] at h
          · simp [parse_timestamp, hb, hiso, hrfc] at h
            rw [← h]
            exact astimezone_utc_tz _
        · simp [parse_timestamp, hb, hiso] at h
          rw [← h]
          exact astimezone_utc_tz _
  · intro w hb h1
    simp [parse_timestamp, hb, h1, is_naive, make_aware_utc, astimezone_utc]

/-- Counterexample to C5 as stated: with the ISO parser behaving as Django's
documented `parse_datetime` contract prescribes on the well-formatted but
invalid datetime `2024-02-31T00:00`, the normalizer propagates the raised
`ValueError` instead of returning no timestamp — it is not exception-free. -/
theorem parse_timestamp_raises_on_invalid_date :
    parse_timestamp libDjango "2024-02-31T00:00" = Except.error () := rfl

/-- Witness for C5 at concrete inputs: a blank string, an unparseable string,
a naive ISO string, and an ISO parse that raises. -/
theorem parse_timestamp_contract_witness :
    parse_timestamp libA "   " = Except.ok Option.none ∧
    parse_timestamp libA "junk" = Except.ok Option.none ∧
    parse_timestamp libA " 2024-01-02 " = Except.ok (some ⟨100, some 0⟩) ∧
    parse_timestamp libDjango " 2024-02-31T00:00 " = Except.error () := by
  refine ⟨(parse_timestamp_contract libA "   ").1 (by decide),
    (parse_timestamp_contract libA "junk").2.2.1 rfl rfl,
    (parse_timestamp_contract libA " 2024-01-02 ").2.2.2.2.2 100 (by decide) rfl,
    (parse_timestamp_contract libDjango " 2024-02-31T00:00 ").2.1 ()
      (by decide) rfl⟩

/-- Folding conditional additions of a constant over a list accumulates the
constant once per element passing the test. -/
theorem foldl_add_if (p : String → Bool) (c : ℚ) :
    ∀ (terms : List String) (init : ℚ),
      terms.foldl (fun sc t => if p t then sc + c else sc) init
        = init + c * (terms.filter p).length := by
  intro terms
  induction terms with
  | nil => intro init; simp
  | cons t ts ih =>
    intro init
    by_cases h : p t = true
    · rw [List.foldl_cons, if_pos h, List.filter_cons_of_pos h, ih]
      simp only [List.length_cons]
      push_cast
      ring
    · rw [List.foldl_cons, if_neg h, List.filter_cons_of_neg (by simpa using h), ih]

/-- One relevance loop iteration adds exactly the field's contribution. -/
theorem relevance_field_step_eq (lib : PyLib) (query : String) (score : ℚ)
    (vw : Option String × ℚ) :
    relevance_field_step lib query score vw
      = score + field_contribution lib query vw := by
  simp only [relevance_field_step, field_contribution]
  by_cases h : pyLower (clean_text lib vw.1) = ""
  · rw [if_pos h, if_pos h]
    ring
  · rw [if_neg h, if_neg h, foldl_add_if]
    by_cases hq : pyIn (pyLower query) (pyLower (clean_text lib vw.1)) = true
    · rw [if_pos hq, if_pos hq]
      ring
    · rw [if_neg hq, if_neg hq]
      ring

/-- The relevance fold accumulates the sum of the field contributions. -/
theorem relevance_foldl_eq (lib : PyLib) (query : String) :
    ∀ (l : List (Option String × ℚ)) (init : ℚ),
      l.foldl (relevance_field_step lib query) init
        = init + (l.map (field_contribution lib query)).sum := by
  intro l
  induction l with
  | nil => intro init; simp
  | cons vw rest ih =>
    intro init
    rw [List.foldl_cons, ih, relevance_field_step_eq]
    simp only [List.map_cons, List.sum_cons]
    ring

/-- Each field contribution is non-negative when its weight is. -/
theorem field_contribution_nonneg (lib : PyLib) (query : String)
    (vw : Option String × ℚ) (h2 : 0 ≤ vw.2) :
    0 ≤ field_contribution lib query vw := by
  unfold field_contribution
  by_cases h : pyLower (clean_text lib vw.1) = ""
  · rw [if_pos h]
  · rw [if_neg h]
    have hterm : (0:ℚ) ≤ (1 / 2 : ℚ) * vw.2 *
        ((((pySplit (pyLower query)).filter (fun t => t ≠ "")).filter
          (fun term => pyIn term (pyLower (clean_text lib vw.1)))).length : ℚ) := by
      positivity
    by_cases hq : pyIn (pyLower query) (pyLower (clean_text lib vw.1)) = true
    · rw [if_pos hq]
      linarith
    · rw [if_neg hq]
      linarith

/-- C2 (amended): the relevance scorer returns the sum of the per-field
contributions — nothing for a field whose cleaned text is empty, otherwise
`2.0 × weight` when the whole lowercased query occurs in the cleaned
lowercased text plus `0.5 × weight` for every whitespace-delimited query term
that occurs in it — and the result is non-negative whenever every weight is
non-negative (an unconditional "always ≥ 0" fails for negative weights). -/
theorem text_relevance_spec (lib : PyLib) (query : String)
    (l : List (Option String × ℚ)) :
    text_relevance lib query l = (l.map (field_contribution lib query)).sum ∧
    ((∀ vw ∈ l, 0 ≤ vw.2) → 0 ≤ text_relevance lib query l) := by
  have hsum : text_relevance lib query l
      = (l.map (field_contribution lib query)).sum := by
    have h := relevance_foldl_eq lib query l 0
    simpa [text_relevance] using h
  refine ⟨hsum, fun hw => ?_⟩
  rw [hsum]
  apply List.sum_nonneg
  intro x hx
  rcases List.mem_map.mp hx with ⟨vw, hvw, rfl⟩
  exact field_contribution_nonneg lib query vw (hw vw hvw)

/-- Counterexample to C2 as stated: with weight `-1` on a matching field the
scorer returns `-5/2`, so the unconditional "the result is always ≥ 0" part
of the claim is false. -/
theorem text_relevance_negative_on_negative_weight :
    text_relevance libA "a" [(some "a", -1)] < 0 := by
  have htext : pyLower (clean_text libA (some "a")) = "a" := by decide
  have hterms : (pySplit (pyLower "a")).filter (fun t => t ≠ "") = ["a"] := by decide
  have hin : pyIn (pyLower "a") "a" = true := by decide
  have hin2 : pyIn "a" "a" = true := by decide
  simp only [text_relevance, List.foldl_cons, List.foldl_nil,
    relevance_field_step, htext, hterms, hin, hin2]
  rw [if_neg (by decide : ¬("a" : String) = "")]
  norm_num

/-- Witness for C2 at a concrete query and field list with non-negative
weights. -/
theorem text_relevance_spec_witness :
    text_relevance libA "tax guidance"
        [(some "Tax guidance page", 3), (Option.none, 2)] =
      ([(some "Tax guidance page", (3:ℚ)), (Option.none, 2)].map
        (field_contribution libA "tax guidance")).sum ∧
    0 ≤ text_relevance libA "tax guidance"
        [(some "Tax guidance page", 3), (Option.none, 2)] :=
  ⟨(text_relevance_spec libA "tax guidance"
      [(some "Tax guidance page", 3), (Option.none, 2)]).1,
    (text_relevance_spec libA "tax guidance"
      [(some "Tax guidance page", 3), (Option.none, 2)]).2 (by
        intro vw hvw
        rcases List.mem_cons.mp hvw with rfl | h
        · norm_num
        · rcases List.mem_cons.mp h with rfl | h
          · norm_num
          · simp at h)⟩

/-- The entry loop succeeds exactly when every entry parses without raising. -/
theorem parse_atom_entries_ok_iff (lib : PyLib) (ns : String) :
    ∀ l : List XmlElem,
      (∃ fes, parse_atom_entries lib ns l = Except.ok fes) ↔
        ∀ en ∈ l, ∃ fe, parse_atom_entry lib ns en = Except.ok fe := by
  intro l
  induction l with
  | nil =>
    constructor
    · intro _ en hen
      exact absurd hen (List.not_mem_nil en)
    · intro _
      exact ⟨[], rfl⟩
  | cons en rest ih =>
    rw [parse_atom_entries]
    constructor
    · rintro ⟨fes, hfes⟩
      rcases he : parse_atom_entry lib ns en with e | fe
      · rw [he] at hfes
        cases hfes
      · rw [he] at hfes
        intro x hx
        rcases List.mem_cons.mp hx with rfl | hx2
        · exact ⟨fe, he⟩
        · rcases hr : parse_atom_entries lib ns rest with e | fes2
          · rw [hr] at hfes
            cases hfes
          · exact (ih.mp ⟨fes2, hr⟩) x hx2
    · intro hall
      obtain ⟨fe, he⟩ := hall en (List.mem_cons_self en rest)
      obtain ⟨fes2, hr⟩ := ih.mpr
        (fun x hx => hall x (List.mem_cons_of_mem en hx))
      rw [he, hr]
      exact ⟨fe :: fes2, rfl⟩

/-- C9 (amended): the root guards accept exactly a root whose lowercased
local name is `feed` and whose namespace, when the tag carries an explicit
`\x7bns\x7d` marker, is the Atom namespace — in particular a `<feed>` root
with no namespace at all passes the guards, so acceptance is not limited to
the Atom namespace, while any other root name or explicitly different
namespace is a hard parse error (a `ContentDiscoveryError`). Parsing returns
the entry list iff the guards pass and every entry's timestamp parses
without raising; with passing guards the only escaping failure is an
uncaught `ValueError` propagated from an entry's timestamp parse. -/
theorem parse_atom_root_acceptance (lib : PyLib) (root : XmlElem) :
    ((∃ entries, parse_atom_root lib root = Except.ok entries) ↔
      (local_name root.tag = "feed" ∧
        (startsWithBrace root.tag = true →
          xml_namespace_of root.tag = ATOM_NAMESPACE) ∧
        ∀ en ∈ xmlFindAll root (qualified_name "entry" (rootNs root)),
          ∃ fe, parse_atom_entry lib (rootNs root) en = Except.ok fe)) ∧
    (¬(local_name root.tag = "feed" ∧
        (startsWithBrace root.tag = true →
          xml_namespace_of root.tag = ATOM_NAMESPACE)) →
      ∃ msg, parse_atom_root lib root
        = Except.error (ParseErr.contentDiscoveryError msg)) ∧
    (∀ err, parse_atom_root lib root = Except.error err →
      local_name root.tag = "feed" →
      (startsWithBrace root.tag = true →
        xml_namespace_of root.tag = ATOM_NAMESPACE) →
      err = ParseErr.valueError) := by
  by_cases h1 : local_name root.tag = "feed"
  · by_cases h2 : startsWithBrace root.tag = true ∧
        xml_namespace_of root.tag ≠ ATOM_NAMESPACE
    · have hroot : parse_atom_root lib root = Except.error
          (ParseErr.contentDiscoveryError
            "Unsupported XML namespace. Only Atom feeds are supported currently.") := by
        unfold parse_atom_root
        rw [if_neg (not_not_intro h1), if_pos h2]
      refine ⟨?_, ?_, ?_⟩
      · rw [hroot]
        constructor
        · rintro ⟨e, he⟩
          cases he
        · rintro ⟨-, hns, -⟩
          exact absurd (hns h2.1) h2.2
      · intro _
        exact ⟨_, hroot⟩
      · intro err herr _ hns
        exact absurd (hns h2.1) h2.2
    · have hroot : parse_atom_root lib root
          = match parse_atom_entries lib (rootNs root)
              (xmlFindAll root (qualified_name "entry" (rootNs root))) with
            | Except.error _ => Except.error ParseErr.valueError
            | Except.ok entries => Except.ok entries := by
        unfold parse_atom_root
        rw [if_neg (not_not_intro h1), if_neg h2]
      have hns : startsWithBrace root.tag = true →
          xml_namespace_of root.tag = ATOM_NAMESPACE :=
        fun hb => not_not.mp (fun hne => h2 ⟨hb, hne⟩)
      refine ⟨?_, ?_, ?_⟩
      · rw [hroot]
        rcases hpe : parse_atom_entries lib (rootNs root)
            (xmlFindAll root (qualified_name "entry" (rootNs root))) with e | fes
        · constructor
          · rintro ⟨entries, he⟩
            cases he
          · rintro ⟨-, -, hall⟩
            obtain ⟨fes2, hr⟩ := (parse_atom_entries_ok_iff lib (rootNs root)
              (xmlFindAll root (qualified_name "entry" (rootNs root)))).mpr hall
            rw [hpe] at hr
            cases hr
        · constructor
          · rintro -
            exact ⟨h1, hns, (parse_atom_entries_ok_iff lib (rootNs root)
              (xmlFindAll root (qualified_name "entry" (rootNs root)))).mp
              ⟨fes, hpe⟩⟩
          · rintro -
            exact ⟨fes, rfl⟩
      · intro hn
        exact absurd ⟨h1, hns⟩ hn
      · intro err herr _ _
        rw [hroot] at herr
        rcases hpe : parse_atom_entries lib (rootNs root)
            (xmlFindAll root (qualified_name "entry" (rootNs root))) with e | fes
        · rw [hpe] at herr
          exact (Except.error.inj herr).symm
        · rw [hpe] at herr
          cases herr
  · have hroot : parse_atom_root lib root = Except.error
        (ParseErr.contentDiscoveryError
          "Unsupported content type: expected an Atom <feed> document.") := by
      unfold parse_atom_root
      rw [if_pos h1]
    refine ⟨?_, ?_, ?_⟩
    · rw [hroot]
      constructor
      · rintro ⟨e, he⟩
        cases he
      · rintro ⟨hf, -⟩
        exact (h1 hf).elim
    · intro _
      exact ⟨_, hroot⟩
    · intro err herr hf
      exact (h1 hf).elim

/-- Counterexample to C9 as stated: a `<feed>` root that is in no XML
namespace (its tag carries no namespace marker, so it is not in the Atom
namespace) is accepted by the Atom parser, contradicting "only a `<feed>`
root in the Atom XML namespace is accepted". -/
theorem parse_atom_root_accepts_unnamespaced_root :
    parse_atom_root libA plainFeedRoot = Except.ok [] ∧
    startsWithBrace plainFeedRoot.tag = false := by
  exact ⟨rfl, rfl⟩

/-- Witness for C9 at a concrete Atom-namespaced root with no entries. -/
theorem parse_atom_root_acceptance_witness :
    ∃ entries, parse_atom_root libA atomFeedRoot = Except.ok entries :=
  (parse_atom_root_acceptance libA atomFeedRoot).1.mpr
    ⟨by decide, fun _ => by decide,
      fun en hen => absurd hen
        (by rw [show xmlFindAll atomFeedRoot
            (qualified_name "entry" (rootNs atomFeedRoot)) = [] from rfl]
            exact List.not_mem_nil en)⟩

/-- The command loop from any starting state appends exactly the per-source
outcomes. -/
theorem handle_loop_general
    (syncOne : ContentDiscoverySource → Except String SourceSyncResult) :
    ∀ (sources : List ContentDiscoverySource) (init : HandleState),
      sources.foldl (handle_source_step syncOne) init
        = combineHandle init (handleSpec syncOne sources) := by
  intro sources
  induction sources with
  | nil =>
    intro init
    simp [combineHandle, handleSpec, allOutLines]
  | cons s rest ih =>
    intro init
    rw [List.foldl_cons, ih]
    rcases hs : syncOne s with e | r <;>
      simp [combineHandle, handleSpec, allOutLines, sourceOutLines, okCount,
        handle_source_step, hs, List.append_assoc, Nat.add_assoc]

/-- C4 (amended): the management command's batch loop isolates failures — it
reports one outcome per source (a progress line and, on success, a summary
line; on failure, a recorded failure string carrying the source id and label
and a stderr line), accumulating totals over the remaining sources after any
failure — whereas the library-level batch helper
`sync_content_discovery_sources` propagates the first source's error and
abandons the remaining sources. -/
theorem batch_sync_outcomes
    (syncOne : ContentDiscoverySource → Except String SourceSyncResult)
    (sources : List ContentDiscoverySource) :
    command_handle_loop syncOne sources = handleSpec syncOne sources ∧
    (∀ (s : ContentDiscoverySource) (rest : List ContentDiscoverySource)
        (e : String),
      syncOne s = Except.error e →
      sync_content_discovery_sources syncOne (s :: rest) = Except.error e) := by
  constructor
  · have h := handle_loop_general syncOne sources {}
    rw [command_handle_loop, h]
    rcases hs : handleSpec syncOne sources with ⟨⟨a, b, c, d⟩, f, o, r⟩
    simp [combineHandle, HandleState.mk.injEq]
  · intro s rest e he
    simp [sync_content_discovery_sources, he]

/-- Counterexample to C4 as stated: for the library-level batch operation
over two sources where the first fails and the second would succeed, the
batch returns only the error — no per-source outcome for the second source —
so the batch does short-circuit at the first failure. -/
theorem sync_sources_short_circuits :
    sync_content_discovery_sources syncFailFirst [srcA, srcB]
        = Except.error "Could not fetch 'https://a.example/feed': boom" ∧
    (∃ r, syncFailFirst srcB = Except.ok r) :=
  ⟨rfl, ⟨_, rfl⟩⟩

/-- Witness for C4 at the concrete two-source batch with a failing first
source. -/
theorem batch_sync_outcomes_witness :
    command_handle_loop syncFailFirst [srcA, srcB]
        = handleSpec syncFailFirst [srcA, srcB] ∧
    sync_content_discovery_sources syncFailFirst (srcA :: [srcB])
        = Except.error "Could not fetch 'https://a.example/feed': boom" :=
  ⟨(batch_sync_outcomes syncFailFirst [srcA, srcB]).1,
    (batch_sync_outcomes syncFailFirst [srcA, srcB]).2 srcA [srcB] _ rfl⟩

/-- Projection helper for the sync loop state. -/
@[simp] theorem SyncState_mk_result (d : Db) (r : SourceSyncResult)
    (ex sn : List String) : (SyncState.mk d r ex sn).result = r := rfl

/-- Projection helper for the sync loop state. -/
@[simp] theorem SyncState_mk_seen (d : Db) (r : SourceSyncResult)
    (ex sn : List String) : (SyncState.mk d r ex sn).seen_urls = sn := rfl

/-- Projection helper for the sync loop state. -/
@[simp] theorem SyncState_mk_existing (d : Db) (r : SourceSyncResult)
    (ex sn : List String) : (SyncState.mk d r ex sn).existing_urls = ex := rfl

/-- The three specification counters always account for every entry. -/
theorem spec_counts_sum (snapshot : List String) :
    ∀ (entries : List FeedEntry) (seen : List String),
      (spec_counts snapshot seen entries).1
        + (spec_counts snapshot seen entries).2.1
        + (spec_counts snapshot seen entries).2.2 = entries.length := by
  intro entries
  induction entries with
  | nil => intro seen; simp [spec_counts]
  | cons e rest ih =>
    intro seen
    by_cases h : pyStrip e.url = "" ∨ pyStrip e.url ∈ seen
    · rcases hsc : spec_counts snapshot seen rest with ⟨a, b, c⟩
      have h1 := ih seen
      rw [hsc] at h1
      have hcons : spec_counts snapshot seen (e :: rest) = (a, b, c + 1) := by
        simp [spec_counts, h, hsc]
      rw [hcons, List.length_cons]
      change a + b + (c + 1) = rest.length + 1
      change a + b + c = rest.length at h1
      omega
    · rcases hsc : spec_counts snapshot (pyStrip e.url :: seen) rest with ⟨a, b, c⟩
      have h1 := ih (pyStrip e.url :: seen)
      rw [hsc] at h1
      change a + b + c = rest.length at h1
      by_cases h2 : pyStrip e.url ∈ snapshot
      · have hcons : spec_counts snapshot seen (e :: rest) = (a, b + 1, c) := by
          simp [spec_counts, h, h2, hsc]
        rw [hcons, List.length_cons]
        change a + (b + 1) + c = rest.length + 1
        omega
      · have hcons : spec_counts snapshot seen (e :: rest) = (a + 1, b, c) := by
          simp [spec_counts, h, h2, hsc]
        rw [hcons, List.length_cons]
        change (a + 1) + b + c = rest.length + 1
        omega

/-- Projection helper for the sync result counters. -/
@[simp] theorem SourceSyncResult_mk_fields (i : Int) (l u : String)
    (t c up s : Nat) :
    (SourceSyncResult.mk i l u t c up s).total_entries = t ∧
    (SourceSyncResult.mk i l u t c up s).created = c ∧
    (SourceSyncResult.mk i l u t c up s).updated = up ∧
    (SourceSyncResult.mk i l u t c up s).skipped = s :=
  ⟨rfl, rfl, rfl, rfl⟩

/-- The sync loop, started from any state whose `seen_urls` has the same
members as the specification's seen set and whose mutable `existing_urls`
differs from the fixed snapshot only by URLs already seen in this pass,
accumulates exactly the specification counters: the mutation of
`existing_urls` during the pass never changes a classification. -/
theorem sync_loop_counts (lib : PyLib) (source : ContentDiscoverySource)
    (now : Int) (snapshot0 : List String) :
    ∀ (entries : List FeedEntry) (st : SyncState) (specSeen : List String),
      (∀ u, u ∈ st.seen_urls ↔ u ∈ specSeen) →
      (∀ u, u ∈ st.existing_urls → u ∈ snapshot0 ∨ u ∈ specSeen) →
      (∀ u, u ∈ snapshot0 → u ∈ st.existing_urls) →
      ((entries.foldl (sync_entry_step lib source now) st).result.created
          = st.result.created + (spec_counts snapshot0 specSeen entries).1 ∧
        (entries.foldl (sync_entry_step lib source now) st).result.updated
          = st.result.updated + (spec_counts snapshot0 specSeen entries).2.1 ∧
        (entries.foldl (sync_entry_step lib source now) st).result.skipped
          = st.result.skipped + (spec_counts snapshot0 specSeen entries).2.2 ∧
        (entries.foldl (sync_entry_step lib source now) st).result.total_entries
          = st.result.total_entries + entries.length) := by
  intro entries
  induction entries with
  | nil =>
    intro st specSeen hseen hexist hsnap
    simp [spec_counts]
  | cons e rest ih =>
    intro st specSeen hseen hexist hsnap
    rw [List.foldl_cons]
    by_cases hskip : pyStrip e.url = "" ∨ pyStrip e.url ∈ st.seen_urls
    · have hskip' : pyStrip e.url = "" ∨ pyStrip e.url ∈ specSeen := by
        rcases hskip with h | h
        · exact Or.inl h
        · exact Or.inr ((hseen _).mp h)
      have hstep : sync_entry_step lib source now st e
          = SyncState.mk st.db
              (SourceSyncResult.mk st.result.source_id st.result.source_label
                st.result.source_url (st.result.total_entries + 1)
                st.result.created st.result.updated (st.result.skipped + 1))
              st.existing_urls st.seen_urls := by
        simp only [sync_entry_step]
        rw [if_pos hskip]
      rw [hstep]
      obtain ⟨hc, hu, hs2, ht⟩ :=
        ih (SyncState.mk st.db
              (SourceSyncResult.mk st.result.source_id st.result.source_label
                st.result.source_url (st.result.total_entries + 1)
                st.result.created st.result.updated (st.result.skipped + 1))
              st.existing_urls st.seen_urls) specSeen hseen hexist hsnap
      simp only [SyncState_mk_result, SourceSyncResult_mk_fields] at hc hu hs2 ht
      rcases hsc : spec_counts snapshot0 specSeen rest with ⟨a, b, c⟩
      rw [hsc] at hc hu hs2
      have hcons : spec_counts snapshot0 specSeen (e :: rest) = (a, b, c + 1) := by
        simp [spec_counts, hskip', hsc]
      rw [hcons, List.length_cons]
      refine ⟨?_, ?_, ?_, ?_⟩
      · change _ = st.result.created + a
        change _ = st.result.created + a at hc
        omega
      · change _ = st.result.updated + b
        change _ = st.result.updated + b at hu
        omega
      · change _ = st.result.skipped + (c + 1)
        change _ = st.result.skipped + 1 + c at hs2
        omega
      · change _ = st.result.total_entries + (rest.length + 1)
        change _ = st.result.total_entries + 1 + rest.length at ht
        omega
    · have hne : pyStrip e.url ≠ "" := fun h => hskip (Or.inl h)
      have hnotseen : pyStrip e.url ∉ st.seen_urls := fun h => hskip (Or.inr h)
      have hnotseen' : pyStrip e.url ∉ specSeen := fun h => hnotseen ((hseen _).mpr h)
      have hskip'2 : ¬(pyStrip e.url = "" ∨ pyStrip e.url ∈ specSeen) := by
        rintro (h | h)
        · exact hne h
        · exact hnotseen' h
      have hseen' : ∀ u, u ∈ st.seen_urls ++ [pyStrip e.url]
          ↔ u ∈ pyStrip e.url :: specSeen := by
        intro u
        simp only [List.mem_append, List.mem_singleton, List.mem_cons, hseen u]
        tauto
      by_cases hcls : pyStrip e.url ∈ st.existing_urls
      · have hsnapmem : pyStrip e.url ∈ snapshot0 := by
          rcases hexist _ hcls with h | h
          · exact h
          · exact absurd h hnotseen'
        have hstep : sync_entry_step lib source now st e
            = SyncState.mk
                (upsert_from_url lib st.db now (pyStrip e.url) (some source)
                  e.title e.summary e.created_at e.created_at e.updated_at
                  (buildEntryMetadata e))
                (SourceSyncResult.mk st.result.source_id st.result.source_label
                  st.result.source_url (st.result.total_entries + 1)
                  st.result.created (st.result.updated + 1) st.result.skipped)
                st.existing_urls (st.seen_urls ++ [pyStrip e.url]) := by
          simp only [sync_entry_step]
          rw [if_neg hskip, if_pos hcls]
        rw [hstep]
        have hexist' : ∀ u, u ∈ st.existing_urls →
            u ∈ snapshot0 ∨ u ∈ pyStrip e.url :: specSeen := by
          intro u hu
          rcases hexist u hu with h | h
          · exact Or.inl h
          · exact Or.inr (List.mem_cons_of_mem _ h)
        obtain ⟨hc, hu, hs2, ht⟩ :=
          ih (SyncState.mk
                (upsert_from_url lib st.db now (pyStrip e.url) (some source)
                  e.title e.summary e.created_at e.created_at e.updated_at
                  (buildEntryMetadata e))
                (SourceSyncResult.mk st.result.source_id st.result.source_label
                  st.result.source_url (st.result.total_entries + 1)
                  st.result.created (st.result.updated + 1) st.result.skipped)
                st.existing_urls (st.seen_urls ++ [pyStrip e.url]))
            (pyStrip e.url :: specSeen) hseen' hexist' hsnap
        simp only [SyncState_mk_result, SourceSyncResult_mk_fields] at hc hu hs2 ht
        rcases hsc : spec_counts snapshot0 (pyStrip e.url :: specSeen) rest
          with ⟨a, b, c⟩
        rw [hsc] at hc hu hs2
        have hcons : spec_counts snapshot0 specSeen (e :: rest)
            = (a, b + 1, c) := by
          simp [spec_counts, hskip'2, hsnapmem, hsc]
        rw [hcons, List.length_cons]
        refine ⟨?_, ?_, ?_, ?_⟩
        · change _ = st.result.created + a
          change _ = st.result.created + a at hc
          omega
        · change _ = st.result.updated + (b + 1)
          change _ = st.result.updated + 1 + b at hu
          omega
        · change _ = st.result.skipped + c
          change _ = st.result.skipped + c at hs2
          omega
        · change _ = st.result.total_entries + (rest.length + 1)
          change _ = st.result.total_entries + 1 + rest.length at ht
          omega
      · have hsnapnot : pyStrip e.url ∉ snapshot0 := fun h => hcls (hsnap _ h)
        have hstep : sync_entry_step lib source now st e
            = SyncState.mk
                (upsert_from_url lib st.db now (pyStrip e.url) (some source)
                  e.title e.summary e.created_at e.created_at e.updated_at
                  (buildEntryMetadata e))
                (SourceSyncResult.mk st.result.source_id st.result.source_label
                  st.result.source_url (st.result.total_entries + 1)
                  (st.result.created + 1) st.result.updated st.result.skipped)
                (st.existing_urls ++ [pyStrip e.url])
                (st.seen_urls ++ [pyStrip e.url]) := by
          simp only [sync_entry_step]
          rw [if_neg hskip, if_neg hcls]
        rw [hstep]
        have hexist' : ∀ u, u ∈ st.existing_urls ++ [pyStrip e.url] →
            u ∈ snapshot0 ∨ u ∈ pyStrip e.url :: specSeen := by
          intro u hu
          rcases List.mem_append.mp hu with h | h
          · rcases hexist u h with h2 | h2
            · exact Or.inl h2
            · exact Or.inr (List.mem_cons_of_mem _ h2)
          · rw [List.mem_singleton.mp h]
            exact Or.inr (List.mem_cons_self _ _)
        have hsnap' : ∀ u, u ∈ snapshot0 →
            u ∈ st.existing_urls ++ [pyStrip e.url] := by
          intro u hu
          exact List.mem_append_left _ (hsnap u hu)
        obtain ⟨hc, hu, hs2, ht⟩ :=
          ih (SyncState.mk
                (upsert_from_url lib st.db now (pyStrip e.url) (some source)
                  e.title e.summary e.created_at e.created_at e.updated_at
                  (buildEntryMetadata e))
                (SourceSyncResult.mk st.result.source_id st.result.source_label
                  st.result.source_url (st.result.total_entries + 1)
                  (st.result.created + 1) st.result.updated st.result.skipped)
                (st.existing_urls ++ [pyStrip e.url])
                (st.seen_urls ++ [pyStrip e.url]))
            (pyStrip e.url :: specSeen) hseen' hexist' hsnap'
        simp only [SyncState_mk_result, SourceSyncResult_mk_fields] at hc hu hs2 ht
        rcases hsc : spec_counts snapshot0 (pyStrip e.url :: specSeen) rest
          with ⟨a, b, c⟩
        rw [hsc] at hc hu hs2
        have hcons : spec_counts snapshot0 specSeen (e :: rest)
            = (a + 1, b, c) := by
          simp [spec_counts, hskip'2, hsnapnot, hsc]
        rw [hcons, List.length_cons]
        refine ⟨?_, ?_, ?_, ?_⟩
        · change _ = st.result.created + (a + 1)
          change _ = st.result.created + 1 + a at hc
          omega
        · change _ = st.result.updated + b
          change _ = st.result.updated + b at hu
          omega
        · change _ = st.result.skipped + c
          change _ = st.result.skipped + c at hs2
          omega
        · change _ = st.result.total_entries + (rest.length + 1)
          change _ = st.result.total_entries + 1 + rest.length at ht
          omega

/-- The result component of a sync is the loop state's result, starting from
zero counters, the snapshot and an empty seen set. -/
theorem sync_source_entries_result (lib : PyLib) (source : ContentDiscoverySource)
    (db : Db) (now : Int) (entries : List FeedEntry) :
    (sync_source_entries lib source db now entries).2
      = (entries.foldl (sync_entry_step lib source now)
          (SyncState.mk db
            (SourceSyncResult.mk source.id (pyOrS source.name source.url)
              source.url 0 0 0 0)
            (existingUrlsSnapshot db entries) [])).result := rfl

/-- C1: a sync of one source processes the parsed entries in order, skipping
an entry exactly when its trimmed URL is blank or already seen in the pass
and otherwise classifying it as created or updated purely by membership in
the snapshot of stored URLs taken once before the loop (the counters equal
the specification recursion `spec_counts`); consequently
`created + updated + skipped = total_entries = number of entries`; and in the
concrete three-entry sync with one blank URL the result is `total_entries =
3`, `skipped = 1`, `created + updated = 2`. -/
theorem sync_source_counts_spec (lib : PyLib) (source : ContentDiscoverySource)
    (db : Db) (now : Int) (entries : List FeedEntry) :
    ((sync_source_entries lib source db now entries).2.created,
      (sync_source_entries lib source db now entries).2.updated,
      (sync_source_entries lib source db now entries).2.skipped)
        = spec_counts (existingUrlsSnapshot db entries) [] entries ∧
    (sync_source_entries lib source db now entries).2.total_entries
        = entries.length ∧
    (sync_source_entries lib source db now entries).2.created
        + (sync_source_entries lib source db now entries).2.updated
        + (sync_source_entries lib source db now entries).2.skipped
        = entries.length ∧
    ((sync_source_entries libA srcA emptyDb 0
        [mkEntry "   ", mkEntry "https://x.example/1",
          mkEntry "https://x.example/2"]).2.total_entries = 3 ∧
      (sync_source_entries libA srcA emptyDb 0
        [mkEntry "   ", mkEntry "https://x.example/1",
          mkEntry "https://x.example/2"]).2.skipped = 1 ∧
      (sync_source_entries libA srcA emptyDb 0
        [mkEntry "   ", mkEntry "https://x.example/1",
          mkEntry "https://x.example/2"]).2.created
        + (sync_source_entries libA srcA emptyDb 0
            [mkEntry "   ", mkEntry "https://x.example/1",
              mkEntry "https://x.example/2"]).2.updated = 2) := by
  obtain ⟨hc, hu, hs2, ht⟩ :=
    sync_loop_counts lib source now (existingUrlsSnapshot db entries) entries
      (SyncState.mk db
        (SourceSyncResult.mk source.id (pyOrS source.name source.url)
          source.url 0 0 0 0)
        (existingUrlsSnapshot db entries) [])
      [] (fun u => Iff.rfl) (fun u h => Or.inl h) (fun u h => h)
  simp only [SyncState_mk_result, SyncState_mk_existing, SyncState_mk_seen,
    SourceSyncResult_mk_fields] at hc hu hs2 ht
  rcases hsc : spec_counts (existingUrlsSnapshot db entries) [] entries
    with ⟨a, b, c⟩
  rw [hsc] at hc hu hs2
  change _ = 0 + a at hc
  change _ = 0 + b at hu
  change _ = 0 + c at hs2
  change _ = 0 + entries.length at ht
  rw [Nat.zero_add] at hc hu hs2 ht
  have hsum := spec_counts_sum (existingUrlsSnapshot db entries) entries []
  rw [hsc] at hsum
  change a + b + c = entries.length at hsum
  refine ⟨?_, ?_, ?_, ?_⟩
  · rw [sync_source_entries_result, hc, hu, hs2]
  · rw [sync_source_entries_result, ht]
  · rw [sync_source_entries_result, hc, hu, hs2]
    exact hsum
  · refine ⟨by decide, by decide, by decide⟩

/-- Counterexample to C8 as stated: in a pass over two entries with the same
non-blank URL against an empty store, the first occurrence is counted as
created but the second is counted as skipped, not as updated — the in-pass
`seen_urls` deduplication fires before the created/updated classification. -/
theorem sync_duplicate_url_counterexample :
    (sync_source_entries libA srcA emptyDb 0
      [mkEntry "https://dup.example/x", mkEntry "https://dup.example/x"]).2.created
        = 1 ∧
    (sync_source_entries libA srcA emptyDb 0
      [mkEntry "https://dup.example/x", mkEntry "https://dup.example/x"]).2.updated
        = 0 ∧
    (sync_source_entries libA srcA emptyDb 0
      [mkEntry "https://dup.example/x", mkEntry "https://dup.example/x"]).2.skipped
        = 1 := by
  refine ⟨by decide, by decide, by decide⟩

/-- C8 (amended): when one pass processes a feed in which the same non-blank
URL (not previously stored) appears in two entries, the first occurrence is
counted as created and the second occurrence is skipped by the in-pass URL
deduplication — counted in `skipped`, never as updated. -/
theorem sync_duplicate_url_second_skipped (lib : PyLib)
    (source : ContentDiscoverySource) (db : Db) (now : Int) (e1 e2 : FeedEntry)
    (hsame : pyStrip e2.url = pyStrip e1.url)
    (hne : pyStrip e1.url ≠ "")
    (hnew : pyStrip e1.url ∉ existingUrlsSnapshot db [e1, e2]) :
    (sync_source_entries lib source db now [e1, e2]).2.created = 1 ∧
    (sync_source_entries lib source db now [e1, e2]).2.updated = 0 ∧
    (sync_source_entries lib source db now [e1, e2]).2.skipped = 1 ∧
    (sync_source_entries lib source db now [e1, e2]).2.total_entries = 2 := by
  obtain ⟨hc, hu, hs2, ht⟩ :=
    sync_loop_counts lib source now (existingUrlsSnapshot db [e1, e2]) [e1, e2]
      (SyncState.mk db
        (SourceSyncResult.mk source.id (pyOrS source.name source.url)
          source.url 0 0 0 0)
        (existingUrlsSnapshot db [e1, e2]) [])
      [] (fun u => Iff.rfl) (fun u h => Or.inl h) (fun u h => h)
  simp only [SyncState_mk_result, SyncState_mk_existing, SyncState_mk_seen,
    SourceSyncResult_mk_fields] at hc hu hs2 ht
  have hsc : spec_counts (existingUrlsSnapshot db [e1, e2]) [] [e1, e2]
      = (1, 0, 1) := by
    simp [spec_counts, hne, hsame, hnew]
  rw [hsc] at hc hu hs2
  change _ = 0 + 1 at hc
  change _ = 0 + 0 at hu
  change _ = 0 + 1 at hs2
  change _ = 0 + 2 at ht
  rw [sync_source_entries_result]
  omega

/-- Witness for C8 at a concrete duplicate-URL pass over an empty store. -/
theorem sync_duplicate_url_second_skipped_witness :
    (sync_source_entries libA srcB emptyDb 0
      [mkEntry "https://dup.example/y", mkEntry "https://dup.example/y"]).2.created
        = 1 ∧
    (sync_source_entries libA srcB emptyDb 0
      [mkEntry "https://dup.example/y", mkEntry "https://dup.example/y"]).2.updated
        = 0 ∧
    (sync_source_entries libA srcB emptyDb 0
      [mkEntry "https://dup.example/y", mkEntry "https://dup.example/y"]).2.skipped
        = 1 ∧
    (sync_source_entries libA srcB emptyDb 0
      [mkEntry "https://dup.example/y", mkEntry "https://dup.example/y"]).2.total_entries
        = 2 :=
  sync_duplicate_url_second_skipped libA srcB emptyDb 0
    (mkEntry "https://dup.example/y") (mkEntry "https://dup.example/y")
    rfl (by decide) (by decide)

/-- Dropping a prefix by `p` twice is the same as dropping it once. -/
theorem dropWhile_dropWhile (p : α → Bool) :
    ∀ l : List α, (l.dropWhile p).dropWhile p = l.dropWhile p := by
  intro l
  induction l with
  | nil => simp
  | cons a t ih =>
    rw [List.dropWhile_cons]
    by_cases h : p a = true
    · rw [if_pos h]
      exact ih
    · rw [if_neg h, List.dropWhile_cons, if_neg h]

/-- The head surviving a `dropWhile` fails the predicate. -/
theorem dropWhile_head_false (p : α → Bool) :
    ∀ (l : List α) (a : α) (t : List α), l.dropWhile p = a :: t → p a = false := by
  intro l
  induction l with
  | nil => intro a t h; simp at h
  | cons b s ih =>
    intro a t h
    rw [List.dropWhile_cons] at h
    by_cases hb : p b = true
    · rw [if_pos hb] at h
      exact ih a t h
    · rw [if_neg hb] at h
      injection h with h1 h2
      subst h1
      simpa using hb

/-- Python's `strip` is idempotent. -/
theorem pyStrip_idem (s : String) : pyStrip (pyStrip s) = pyStrip s := by
  have key : ∀ l : List Char,
      (((((((l.dropWhile pyIsSpace).reverse.dropWhile pyIsSpace).reverse).dropWhile
        pyIsSpace).reverse).dropWhile pyIsSpace).reverse)
        = ((l.dropWhile pyIsSpace).reverse.dropWhile pyIsSpace).reverse := by
    intro l
    have h1 : (l.dropWhile pyIsSpace).dropWhile pyIsSpace
        = l.dropWhile pyIsSpace := dropWhile_dropWhile pyIsSpace l
    have hy : (((l.dropWhile pyIsSpace).reverse.dropWhile pyIsSpace).dropWhile
        pyIsSpace) = (l.dropWhile pyIsSpace).reverse.dropWhile pyIsSpace :=
      dropWhile_dropWhile pyIsSpace (l.dropWhile pyIsSpace).reverse
    have hA : (((l.dropWhile pyIsSpace).reverse.dropWhile pyIsSpace).reverse).dropWhile
        pyIsSpace = ((l.dropWhile pyIsSpace).reverse.dropWhile pyIsSpace).reverse := by
      cases hyr : ((l.dropWhile pyIsSpace).reverse.dropWhile pyIsSpace).reverse with
      | nil => simp
      | cons a t =>
        have hsplit : (l.dropWhile pyIsSpace).reverse.takeWhile pyIsSpace
            ++ (l.dropWhile pyIsSpace).reverse.dropWhile pyIsSpace
            = (l.dropWhile pyIsSpace).reverse :=
          List.takeWhile_append_dropWhile pyIsSpace (l.dropWhile pyIsSpace).reverse
        have hsplit' : ((l.dropWhile pyIsSpace).reverse.dropWhile pyIsSpace).reverse
            ++ ((l.dropWhile pyIsSpace).reverse.takeWhile pyIsSpace).reverse
            = l.dropWhile pyIsSpace := by
          rw [← List.reverse_append, hsplit, List.reverse_reverse]
        rw [hyr] at hsplit'
        have hpa : pyIsSpace a = false := by
          exact dropWhile_head_false pyIsSpace l a
            (t ++ ((l.dropWhile pyIsSpace).reverse.takeWhile pyIsSpace).reverse)
            hsplit'.symm
        rw [List.dropWhile_cons, if_neg (by simp [hpa])]
    rw [hA, List.reverse_reverse, hy]
  exact congrArg String.mk (key s.data)

/-- Attaching default tags never changes any field other than `tags`. -/
theorem applyDefaultTags_preserves (tt : List Int)
    (src : Option ContentDiscoverySource) (it : ExternalContentItem) :
    (applyDefaultTags tt src it).url = it.url ∧
    (applyDefaultTags tt src it).title = it.title ∧
    (applyDefaultTags tt src it).hidden = it.hidden ∧
    (applyDefaultTags tt src it).first_seen_at = it.first_seen_at ∧
    (applyDefaultTags tt src it).last_seen_at = it.last_seen_at := by
  rcases src with _ | s
  · exact ⟨rfl, rfl, rfl, rfl, rfl⟩
  · simp only [applyDefaultTags]
    split
    · exact ⟨rfl, rfl, rfl, rfl, rfl⟩
    · exact ⟨rfl, rfl, rfl, rfl, rfl⟩

/-- The tag rows added by the attachment step are exactly the source's
default tags not already attached. -/
theorem applyDefaultTags_tags_some (tt : List Int) (s : ContentDiscoverySource)
    (it : ExternalContentItem) :
    (applyDefaultTags tt (some s) it).tags
      = it.tags ++ (get_default_tags tt s).filter (fun tid => tid ∉ it.tags) := by
  simp only [applyDefaultTags]
  by_cases h : (get_default_tags tt s).isEmpty
  · rw [if_pos h]
    rw [List.isEmpty_iff.mp h]
    simp
  · rw [if_neg h]

/-- Searching a list whose every member fails the test, extended by one
passing element, returns that element. -/
theorem find?_append_singleton (p : α → Bool) (a : α) :
    ∀ l : List α, (∀ x ∈ l, p x = false) → p a = true →
      (l ++ [a]).find? p = some a := by
  intro l
  induction l with
  | nil =>
    intro _ ha
    rw [List.nil_append]
    exact List.find?_cons_of_pos _ (by simp [ha])
  | cons b t ih =>
    intro hl ha
    rw [List.cons_append,
      List.find?_cons_of_neg _ (by simp [hl b (List.mem_cons_self b t)])]
    exact ih (fun x hx => hl x (List.mem_cons_of_mem b hx)) ha

/-- Replacing the first passing element of a list whose proper prefix all
fails the test replaces exactly the appended element. -/
theorem replaceFirst_append_singleton (p : ExternalContentItem → Bool)
    (x a : ExternalContentItem) :
    ∀ l : List ExternalContentItem, (∀ y ∈ l, p y = false) → p a = true →
      replaceFirst p x (l ++ [a]) = l ++ [x] := by
  intro l
  induction l with
  | nil =>
    intro _ ha
    simp [replaceFirst, ha]
  | cons b t ih =>
    intro hl ha
    rw [List.cons_append, replaceFirst,
      if_neg (by simp [hl b (List.mem_cons_self b t)])]
    rw [List.cons_append, ih (fun y hy => hl y (List.mem_cons_of_mem b hy)) ha]

/-- Elements failing the test survive `replaceFirst` unchanged. -/
theorem mem_replaceFirst_of_neg (p : ExternalContentItem → Bool)
    (x y : ExternalContentItem) :
    ∀ l : List ExternalContentItem, y ∈ l → p y = false →
      y ∈ replaceFirst p x l := by
  intro l
  induction l with
  | nil => intro h; simp at h
  | cons b t ih =>
    intro hy hpy
    rw [replaceFirst]
    by_cases hb : p b = true
    · rw [if_pos hb]
      rcases List.mem_cons.mp hy with rfl | h
      · rw [hpy] at hb
        cases hb
      · exact List.mem_cons_of_mem _ h
    · rw [if_neg hb]
      rcases List.mem_cons.mp hy with rfl | h
      · exact List.mem_cons_self _ _
      · exact List.mem_cons_of_mem _ (ih h hpy)

/-- Unfolding of the upsert when no row with the trimmed URL exists: the
freshly created row, with the default tags attached, is appended. -/
theorem upsert_create (lib : PyLib) (db : Db) (now : Int) (url : String)
    (source : Option ContentDiscoverySource) (title summary : String)
    (pa ca ua : Option PyDateTime) (m : List (String × MetaValue))
    (h : db.items.find? (fun it => it.url == pyStrip url) = Option.none) :
    upsert_from_url lib db now url source title summary pa ca ua m
      = { db with items := db.items ++
          [applyDefaultTags db.tag_table source
            (upsert_row_create lib now (pyStrip url) source title summary
              pa ca ua m)] } := by
  simp only [upsert_from_url]
  rw [h]

/-- Unfolding of the upsert when a row with the trimmed URL is found: the
first matching row is replaced by its overwritten version with the default
tags attached. -/
theorem upsert_update (lib : PyLib) (db : Db) (now : Int) (url : String)
    (source : Option ContentDiscoverySource) (title summary : String)
    (pa ca ua : Option PyDateTime) (m : List (String × MetaValue))
    (it0 : ExternalContentItem)
    (h : db.items.find? (fun it => it.url == pyStrip url) = some it0) :
    upsert_from_url lib db now url source title summary pa ca ua m
      = { db with items :=
                    replaceFirst (fun it => it.url == pyStrip url)
                      (applyDefaultTags db.tag_table source
                        (upsert_row_update lib now (pyStrip url) source title
                          summary pa ca ua m it0))
                      db.items } := by
  simp only [upsert_from_url]
  rw [h]

/-- Projection helper for the store. -/
@[simp] theorem Db_mk_items (its : List ExternalContentItem) (tt : List Int) :
    (Db.mk its tt).items = its := rfl

/-- Projection helper for the store. -/
@[simp] theorem Db_mk_tag_table (its : List ExternalContentItem) (tt : List Int) :
    (Db.mk its tt).tag_table = tt := rfl

/-- Field reading of a freshly created row. -/
theorem upsert_row_create_fields (lib : PyLib) (now : Int) (nu : String)
    (source : Option ContentDiscoverySource) (title summary : String)
    (pa ca ua : Option PyDateTime) (m : List (String × MetaValue)) :
    (upsert_row_create lib now nu source title summary pa ca ua m).url
        = pyStrip nu ∧
    (upsert_row_create lib now nu source title summary pa ca ua m).title
        = title ∧
    (upsert_row_create lib now nu source title summary pa ca ua m).first_seen_at
        = now ∧
    (upsert_row_create lib now nu source title summary pa ca ua m).last_seen_at
        = now ∧
    (upsert_row_create lib now nu source title summary pa ca ua m).tags = [] ∧
    (upsert_row_create lib now nu source title summary pa ca ua m).hidden
        = false :=
  ⟨rfl, rfl, rfl, rfl, rfl, rfl⟩

/-- Field reading of an overwritten row: `first_seen_at`, `tags` and `hidden`
come from the old row, `last_seen_at` is the save time. -/
theorem upsert_row_update_fields (lib : PyLib) (now : Int) (nu : String)
    (source : Option ContentDiscoverySource) (title summary : String)
    (pa ca ua : Option PyDateTime) (m : List (String × MetaValue))
    (it0 : ExternalContentItem) :
    (upsert_row_update lib now nu source title summary pa ca ua m it0).url
        = pyStrip nu ∧
    (upsert_row_update lib now nu source title summary pa ca ua m it0).title
        = title ∧
    (upsert_row_update lib now nu source title summary pa ca ua m it0).first_seen_at
        = it0.first_seen_at ∧
    (upsert_row_update lib now nu source title summary pa ca ua m it0).last_seen_at
        = now ∧
    (upsert_row_update lib now nu source title summary pa ca ua m it0).tags
        = it0.tags ∧
    (upsert_row_update lib now nu source title summary pa ca ua m it0).hidden
        = it0.hidden :=
  ⟨rfl, rfl, rfl, rfl, rfl, rfl⟩

/-- C6: upserting the same URL twice into a store that does not yet hold it
leaves exactly one row with that (trimmed) URL; its title is the one supplied
by the second upsert, its `first_seen_at` is the first upsert's save time,
unchanged by the second, and its `last_seen_at` is the second upsert's save
time — so with increasing save times `last_seen_at` strictly advances past
`first_seen_at`. -/
theorem upsert_twice_single_item (lib : PyLib) (db : Db) (u : String)
    (src1 src2 : Option ContentDiscoverySource) (t1 t2 : Int)
    (title1 summary1 title2 summary2 : String)
    (p1 c1 u1 p2 c2 u2 : Option PyDateTime)
    (m1 m2 : List (String × MetaValue))
    (hfresh : ∀ it ∈ db.items, it.url ≠ pyStrip u) :
    ((upsert_from_url lib
        (upsert_from_url lib db t1 u src1 title1 summary1 p1 c1 u1 m1)
        t2 u src2 title2 summary2 p2 c2 u2 m2).items.filter
      (fun it => it.url == pyStrip u)).length = 1 ∧
    (∀ it ∈ (upsert_from_url lib
        (upsert_from_url lib db t1 u src1 title1 summary1 p1 c1 u1 m1)
        t2 u src2 title2 summary2 p2 c2 u2 m2).items,
      it.url = pyStrip u →
        it.title = title2 ∧ it.first_seen_at = t1 ∧ it.last_seen_at = t2 ∧
          (t1 < t2 → it.first_seen_at < it.last_seen_at)) := by
  have hnone : db.items.find? (fun it => it.url == pyStrip u) = Option.none :=
    List.find?_eq_none.mpr (fun x hx => by simp [hfresh x hx])
  have hdb1 := upsert_create lib db t1 u src1 title1 summary1 p1 c1 u1 m1 hnone
  have hAurl : (applyDefaultTags db.tag_table src1
      (upsert_row_create lib t1 (pyStrip u) src1 title1 summary1
        p1 c1 u1 m1)).url = pyStrip u := by
    rw [(applyDefaultTags_preserves db.tag_table src1 _).1,
      (upsert_row_create_fields lib t1 (pyStrip u) src1 title1 summary1
        p1 c1 u1 m1).1, pyStrip_idem]
  have hAfirst : (applyDefaultTags db.tag_table src1
      (upsert_row_create lib t1 (pyStrip u) src1 title1 summary1
        p1 c1 u1 m1)).first_seen_at = t1 := by
    rw [(applyDefaultTags_preserves db.tag_table src1 _).2.2.2.1,
      (upsert_row_create_fields lib t1 (pyStrip u) src1 title1 summary1
        p1 c1 u1 m1).2.2.1]
  have hfind2 : (db.items ++ [applyDefaultTags db.tag_table src1
      (upsert_row_create lib t1 (pyStrip u) src1 title1 summary1
        p1 c1 u1 m1)]).find? (fun it => it.url == pyStrip u)
      = some (applyDefaultTags db.tag_table src1
        (upsert_row_create lib t1 (pyStrip u) src1 title1 summary1
          p1 c1 u1 m1)) :=
    find?_append_singleton _ _ db.items
      (fun x hx => by simp [hfresh x hx]) (by simp [hAurl])
  have hdb2 := upsert_update lib
    { db with items := db.items ++ [applyDefaultTags db.tag_table src1
        (upsert_row_create lib t1 (pyStrip u) src1 title1 summary1
          p1 c1 u1 m1)] }
    t2 u src2 title2 summary2 p2 c2 u2 m2 _ hfind2
  have hrep : replaceFirst (fun it => it.url == pyStrip u)
      (applyDefaultTags db.tag_table src2
        (upsert_row_update lib t2 (pyStrip u) src2 title2 summary2
          p2 c2 u2 m2 (applyDefaultTags db.tag_table src1
            (upsert_row_create lib t1 (pyStrip u) src1 title1 summary1
              p1 c1 u1 m1))))
      (db.items ++ [applyDefaultTags db.tag_table src1
        (upsert_row_create lib t1 (pyStrip u) src1 title1 summary1
          p1 c1 u1 m1)])
      = db.items ++ [applyDefaultTags db.tag_table src2
        (upsert_row_update lib t2 (pyStrip u) src2 title2 summary2
          p2 c2 u2 m2 (applyDefaultTags db.tag_table src1
            (upsert_row_create lib t1 (pyStrip u) src1 title1 summary1
              p1 c1 u1 m1)))] :=
    replaceFirst_append_singleton _ _ _ db.items
      (fun y hy => by simp [hfresh y hy]) (by simp [hAurl])
  have hitems : (upsert_from_url lib
      (upsert_from_url lib db t1 u src1 title1 summary1 p1 c1 u1 m1)
      t2 u src2 title2 summary2 p2 c2 u2 m2).items
      = db.items ++ [applyDefaultTags db.tag_table src2
        (upsert_row_update lib t2 (pyStrip u) src2 title2 summary2
          p2 c2 u2 m2 (applyDefaultTags db.tag_table src1
            (upsert_row_create lib t1 (pyStrip u) src1 title1 summary1
              p1 c1 u1 m1)))] := by
    rw [hdb1, hdb2]
    exact hrep
  have hBurl : (applyDefaultTags db.tag_table src2
      (upsert_row_update lib t2 (pyStrip u) src2 title2 summary2
        p2 c2 u2 m2 (applyDefaultTags db.tag_table src1
          (upsert_row_create lib t1 (pyStrip u) src1 title1 summary1
            p1 c1 u1 m1)))).url = pyStrip u := by
    rw [(applyDefaultTags_preserves db.tag_table src2 _).1,
      (upsert_row_update_fields lib t2 (pyStrip u) src2 title2 summary2
        p2 c2 u2 m2 _).1, pyStrip_idem]
  have hBtitle : (applyDefaultTags db.tag_table src2
      (upsert_row_update lib t2 (pyStrip u) src2 title2 summary2
        p2 c2 u2 m2 (applyDefaultTags db.tag_table src1
          (upsert_row_create lib t1 (pyStrip u) src1 title1 summary1
            p1 c1 u1 m1)))).title = title2 := by
    rw [(applyDefaultTags_preserves db.tag_table src2 _).2.1,
      (upsert_row_update_fields lib t2 (pyStrip u) src2 title2 summary2
        p2 c2 u2 m2 _).2.1]
  have hBfirst : (applyDefaultTags db.tag_table src2
      (upsert_row_update lib t2 (pyStrip u) src2 title2 summary2
        p2 c2 u2 m2 (applyDefaultTags db.tag_table src1
          (upsert_row_create lib t1 (pyStrip u) src1 title1 summary1
            p1 c1 u1 m1)))).first_seen_at = t1 := by
    rw [(applyDefaultTags_preserves db.tag_table src2 _).2.2.2.1,
      (upsert_row_update_fields lib t2 (pyStrip u) src2 title2 summary2
        p2 c2 u2 m2 _).2.2.1, hAfirst]
  have hBlast : (applyDefaultTags db.tag_table src2
      (upsert_row_update lib t2 (pyStrip u) src2 title2 summary2
        p2 c2 u2 m2 (applyDefaultTags db.tag_table src1
          (upsert_row_create lib t1 (pyStrip u) src1 title1 summary1
            p1 c1 u1 m1)))).last_seen_at = t2 := by
    rw [(applyDefaultTags_preserves db.tag_table src2 _).2.2.2.2,
      (upsert_row_update_fields lib t2 (pyStrip u) src2 title2 summary2
        p2 c2 u2 m2 _).2.2.2.1]
  constructor
  · rw [hitems, List.filter_append]
    have h1 : db.items.filter (fun it => it.url == pyStrip u) = [] := by
      rw [List.filter_eq_nil_iff]
      intro x hx
      simp [hfresh x hx]
    rw [h1, List.nil_append, List.filter_cons, if_pos (by simp [hBurl])]
    simp
  · intro it hmem hurl
    rw [hitems] at hmem
    rcases List.mem_append.mp hmem with h | h
    · exact absurd hurl (hfresh it h)
    · rw [List.mem_singleton.mp h]
      refine ⟨hBtitle, hBfirst, hBlast, ?_⟩
      intro hlt
      rw [hBfirst, hBlast]
      exact hlt

/-- Witness for C6: two upserts of the same URL with different titles into an
empty store at times 10 and 20. -/
theorem upsert_twice_single_item_witness :
    ((upsert_from_url libA
        (upsert_from_url libA emptyDb 10 "https://w.example/a " Option.none
          "First title" "s1" Option.none Option.none Option.none [])
        20 "https://w.example/a " Option.none
        "Second title" "s2" Option.none Option.none Option.none []).items.filter
      (fun it => it.url == pyStrip "https://w.example/a ")).length = 1 ∧
    (∀ it ∈ (upsert_from_url libA
        (upsert_from_url libA emptyDb 10 "https://w.example/a " Option.none
          "First title" "s1" Option.none Option.none Option.none [])
        20 "https://w.example/a " Option.none
        "Second title" "s2" Option.none Option.none Option.none []).items,
      it.url = pyStrip "https://w.example/a " →
        it.title = "Second title" ∧ it.first_seen_at = 10 ∧
          it.last_seen_at = 20 ∧
          ((10:Int) < 20 → it.first_seen_at < it.last_seen_at)) :=
  upsert_twice_single_item libA emptyDb "https://w.example/a "
    Option.none Option.none 10 20 "First title" "s1" "Second title" "s2"
    Option.none Option.none Option.none Option.none Option.none Option.none
    [] [] (by intro it h; simp [emptyDb] at h)

/-- The tag-id collection loop keeps its accumulator duplicate-free. -/
theorem collectTagIds_foldl_nodup :
    ∀ (blocks : List (Option Int)) (acc : List Int), acc.Nodup →
      (blocks.foldl collectTagStep acc).Nodup := by
  intro blocks
  induction blocks with
  | nil => intro acc h; exact h
  | cons b bs ih =>
    intro acc h
    rw [List.foldl_cons]
    rcases b with _ | tid
    · exact ih acc h
    · by_cases hc : tid ≠ 0 ∧ tid ∉ acc
      · rw [show collectTagStep acc (some tid)
            = if tid ≠ 0 ∧ tid ∉ acc then acc ++ [tid] else acc from rfl,
          if_pos hc]
        refine ih _ (List.nodup_append.mpr ⟨h, List.nodup_singleton tid, ?_⟩)
        intro a ha hb
        rw [List.mem_singleton.mp hb] at ha
        exact hc.2 ha
      · rw [show collectTagStep acc (some tid)
            = if tid ≠ 0 ∧ tid ∉ acc then acc ++ [tid] else acc from rfl,
          if_neg hc]
        exact ih acc h

/-- The collected default tag ids are duplicate-free. -/
theorem collectTagIds_nodup (blocks : List (Option Int)) :
    (collectTagIds blocks).Nodup :=
  collectTagIds_foldl_nodup blocks [] List.nodup_nil

/-- The default tag ids of a source are duplicate-free. -/
theorem get_default_tag_ids_nodup (s : ContentDiscoverySource) :
    (get_default_tag_ids s).Nodup := by
  unfold get_default_tag_ids
  by_cases h : (collectTagIds s.default_tag_blocks).isEmpty
  · rw [if_pos h]
    exact collectTagIds_nodup _
  · rw [if_neg h]
    exact collectTagIds_nodup _

/-- The default tags a source resolves are duplicate-free. -/
theorem get_default_tags_nodup (tt : List Int) (s : ContentDiscoverySource) :
    (get_default_tags tt s).Nodup :=
  (get_default_tag_ids_nodup s).filter _

/-- C7: upserting the same URL twice from the same source attaches each
default tag exactly once — after the first upsert the fresh item's tag rows
are exactly the source's default tags, the second application adds nothing
(no duplicate associations), and the resulting tag list is duplicate-free. -/
theorem upsert_twice_default_tags (lib : PyLib) (db : Db) (u : String)
    (s : ContentDiscoverySource) (t1 t2 : Int)
    (title1 summary1 title2 summary2 : String)
    (p1 c1 u1 p2 c2 u2 : Option PyDateTime)
    (m1 m2 : List (String × MetaValue))
    (hfresh : ∀ it ∈ db.items, it.url ≠ pyStrip u) :
    ∃ it1 it2,
      (upsert_from_url lib db t1 u (some s) title1 summary1
          p1 c1 u1 m1).items.find? (fun it => it.url == pyStrip u)
        = some it1 ∧
      (upsert_from_url lib
          (upsert_from_url lib db t1 u (some s) title1 summary1 p1 c1 u1 m1)
          t2 u (some s) title2 summary2 p2 c2 u2 m2).items.find?
          (fun it => it.url == pyStrip u)
        = some it2 ∧
      it1.tags = get_default_tags db.tag_table s ∧
      it2.tags = it1.tags ∧
      it1.tags.Nodup := by
  have hnone : db.items.find? (fun it => it.url == pyStrip u) = Option.none :=
    List.find?_eq_none.mpr (fun x hx => by simp [hfresh x hx])
  have hdb1 := upsert_create lib db t1 u (some s) title1 summary1 p1 c1 u1 m1
    hnone
  have hAurl : (applyDefaultTags db.tag_table (some s)
      (upsert_row_create lib t1 (pyStrip u) (some s) title1 summary1
        p1 c1 u1 m1)).url = pyStrip u := by
    rw [(applyDefaultTags_preserves db.tag_table (some s) _).1,
      (upsert_row_create_fields lib t1 (pyStrip u) (some s) title1 summary1
        p1 c1 u1 m1).1, pyStrip_idem]
  have hAtags : (applyDefaultTags db.tag_table (some s)
      (upsert_row_create lib t1 (pyStrip u) (some s) title1 summary1
        p1 c1 u1 m1)).tags = get_default_tags db.tag_table s := by
    rw [applyDefaultTags_tags_some,
      (upsert_row_create_fields lib t1 (pyStrip u) (some s) title1 summary1
        p1 c1 u1 m1).2.2.2.2.1]
    simp
  have hfindA : (db.items ++ [applyDefaultTags db.tag_table (some s)
      (upsert_row_create lib t1 (pyStrip u) (some s) title1 summary1
        p1 c1 u1 m1)]).find? (fun it => it.url == pyStrip u)
      = some (applyDefaultTags db.tag_table (some s)
        (upsert_row_create lib t1 (pyStrip u) (some s) title1 summary1
          p1 c1 u1 m1)) :=
    find?_append_singleton _ _ db.items
      (fun x hx => by simp [hfresh x hx]) (by simp [hAurl])
  have hdb2 := upsert_update lib
    { db with items := db.items ++ [applyDefaultTags db.tag_table (some s)
        (upsert_row_create lib t1 (pyStrip u) (some s) title1 summary1
          p1 c1 u1 m1)] }
    t2 u (some s) title2 summary2 p2 c2 u2 m2 _ hfindA
  have hBtags : (applyDefaultTags db.tag_table (some s)
      (upsert_row_update lib t2 (pyStrip u) (some s) title2 summary2
        p2 c2 u2 m2 (applyDefaultTags db.tag_table (some s)
          (upsert_row_create lib t1 (pyStrip u) (some s) title1 summary1
            p1 c1 u1 m1)))).tags
      = (applyDefaultTags db.tag_table (some s)
        (upsert_row_create lib t1 (pyStrip u) (some s) title1 summary1
          p1 c1 u1 m1)).tags := by
    rw [applyDefaultTags_tags_some,
      (upsert_row_update_fields lib t2 (pyStrip u) (some s) title2 summary2
        p2 c2 u2 m2 _).2.2.2.2.1, hAtags]
    have hnil : (get_default_tags db.tag_table s).filter
        (fun tid => tid ∉ get_default_tags db.tag_table s) = [] := by
      rw [List.filter_eq_nil_iff]
      intro a ha
      simp [ha]
    rw [hnil, List.append_nil]
  have hBurl : (applyDefaultTags db.tag_table (some s)
      (upsert_row_update lib t2 (pyStrip u) (some s) title2 summary2
        p2 c2 u2 m2 (applyDefaultTags db.tag_table (some s)
          (upsert_row_create lib t1 (pyStrip u) (some s) title1 summary1
            p1 c1 u1 m1)))).url = pyStrip u := by
    rw [(applyDefaultTags_preserves db.tag_table (some s) _).1,
      (upsert_row_update_fields lib t2 (pyStrip u) (some s) title2 summary2
        p2 c2 u2 m2 _).1, pyStrip_idem]
  have hrep : replaceFirst (fun it => it.url == pyStrip u)
      (applyDefaultTags db.tag_table (some s)
        (upsert_row_update lib t2 (pyStrip u) (some s) title2 summary2
          p2 c2 u2 m2 (applyDefaultTags db.tag_table (some s)
            (upsert_row_create lib t1 (pyStrip u) (some s) title1 summary1
              p1 c1 u1 m1))))
      (db.items ++ [applyDefaultTags db.tag_table (some s)
        (upsert_row_create lib t1 (pyStrip u) (some s) title1 summary1
          p1 c1 u1 m1)])
      = db.items ++ [applyDefaultTags db.tag_table (some s)
        (upsert_row_update lib t2 (pyStrip u) (some s) title2 summary2
          p2 c2 u2 m2 (applyDefaultTags db.tag_table (some s)
            (upsert_row_create lib t1 (pyStrip u) (some s) title1 summary1
              p1 c1 u1 m1)))] :=
    replaceFirst_append_singleton _ _ _ db.items
      (fun y hy => by simp [hfresh y hy]) (by simp [hAurl])
  have hfindB : (upsert_from_url lib
      (upsert_from_url lib db t1 u (some s) title1 summary1 p1 c1 u1 m1)
      t2 u (some s) title2 summary2 p2 c2 u2 m2).items.find?
      (fun it => it.url == pyStrip u)
      = some (applyDefaultTags db.tag_table (some s)
        (upsert_row_update lib t2 (pyStrip u) (some s) title2 summary2
          p2 c2 u2 m2 (applyDefaultTags db.tag_table (some s)
            (upsert_row_create lib t1 (pyStrip u) (some s) title1 summary1
              p1 c1 u1 m1)))) := by
    rw [hdb1, hdb2]
    simp only [Db_mk_items, Db_mk_tag_table]
    rw [hrep]
    exact find?_append_singleton _ _ db.items
      (fun x hx => by simp [hfresh x hx]) (by simp [hBurl])
  refine ⟨_, _, ?_, hfindB, hAtags, hBtags, ?_⟩
  · rw [hdb1]
    simp only [Db_mk_items]
    exact hfindA
  · rw [hAtags]
    exact get_default_tags_nodup db.tag_table s

/-- Witness for C7 with a concrete source whose default tag blocks contain a
duplicate and a dangling tag id. -/
theorem upsert_twice_default_tags_witness :
    ∃ it1 it2,
      (upsert_from_url libA dbTags 10 "https://t.example/x" (some srcTags)
          "T1" "s" Option.none Option.none Option.none []).items.find?
          (fun it => it.url == pyStrip "https://t.example/x")
        = some it1 ∧
      (upsert_from_url libA
          (upsert_from_url libA dbTags 10 "https://t.example/x" (some srcTags)
            "T1" "s" Option.none Option.none Option.none [])
          20 "https://t.example/x" (some srcTags)
          "T2" "s" Option.none Option.none Option.none []).items.find?
          (fun it => it.url == pyStrip "https://t.example/x")
        = some it2 ∧
      it1.tags = get_default_tags dbTags.tag_table srcTags ∧
      it2.tags = it1.tags ∧
      it1.tags.Nodup :=
  upsert_twice_default_tags libA dbTags "https://t.example/x" srcTags 10 20
    "T1" "s" "T2" "s" Option.none Option.none Option.none Option.none
    Option.none Option.none [] []
    (by intro it h; simp [dbTags] at h)

/-- A witness satisfying `Q` survives replacing the first `p`-passing element
when `Q` transfers from the found element to its replacement. -/
theorem exists_mem_replaceFirst (p : ExternalContentItem → Bool)
    (x : ExternalContentItem) (Q : ExternalContentItem → Prop) :
    ∀ (l : List ExternalContentItem) (it0 : ExternalContentItem),
      l.find? p = some it0 → (Q it0 → Q x) → (∃ y ∈ l, Q y) →
      ∃ y ∈ replaceFirst p x l, Q y := by
  intro l
  induction l with
  | nil => intro it0 h; simp at h
  | cons b t ih =>
    intro it0 hfind himp hex
    obtain ⟨w, hw, hQw⟩ := hex
    rw [replaceFirst]
    by_cases hb : p b = true
    · rw [if_pos hb]
      have hb0 : it0 = b := by
        rw [List.find?_cons_of_pos _ hb] at hfind
        exact (Option.some.inj hfind).symm
      rcases List.mem_cons.mp hw with rfl | hwt
      · exact ⟨x, List.mem_cons_self _ _, himp (hb0 ▸ hQw)⟩
      · exact ⟨w, List.mem_cons_of_mem _ hwt, hQw⟩
    · rw [if_neg hb]
      rw [List.find?_cons_of_neg _ hb] at hfind
      rcases List.mem_cons.mp hw with rfl | hwt
      · exact ⟨w, List.mem_cons_self _ _, hQw⟩
      · obtain ⟨y, hy, hQy⟩ := ih it0 hfind himp ⟨w, hwt, hQw⟩
        exact ⟨y, List.mem_cons_of_mem _ hy, hQy⟩

/-- A hidden item with a given URL is still present and hidden after any one
upsert call. -/
theorem upsert_preserves_hidden (lib : PyLib) (db : Db) (now : Int)
    (url : String) (source : Option ContentDiscoverySource)
    (title summary : String) (pa ca ua : Option PyDateTime)
    (m : List (String × MetaValue)) (u : String)
    (h : ∃ it ∈ db.items, it.url = u ∧ it.hidden = true) :
    ∃ it ∈ (upsert_from_url lib db now url source title summary
        pa ca ua m).items, it.url = u ∧ it.hidden = true := by
  rcases hfind : db.items.find? (fun it => it.url == pyStrip url) with _ | it0
  · rw [upsert_create lib db now url source title summary pa ca ua m hfind]
    simp only [Db_mk_items]
    obtain ⟨w, hw, hQ⟩ := h
    exact ⟨w, List.mem_append_left _ hw, hQ⟩
  · rw [upsert_update lib db now url source title summary pa ca ua m it0 hfind]
    simp only [Db_mk_items]
    refine exists_mem_replaceFirst _ _ _ db.items it0 hfind ?_ h
    rintro ⟨hu0, hh0⟩
    have hp : it0.url = pyStrip url := by
      have := List.find?_some hfind
      simpa using this
    constructor
    · rw [(applyDefaultTags_preserves db.tag_table source _).1,
        (upsert_row_update_fields lib now (pyStrip url) source title summary
          pa ca ua m it0).1, pyStrip_idem, ← hp, hu0]
    · rw [(applyDefaultTags_preserves db.tag_table source _).2.2.1,
        (upsert_row_update_fields lib now (pyStrip url) source title summary
          pa ca ua m it0).2.2.2.2.2, hh0]

/-- A hidden item with a given URL is still present and hidden after any
sequence of upsert calls. -/
theorem applyUpserts_preserves_hidden (lib : PyLib) (u : String) :
    ∀ (calls : List UpsertCall) (db : Db),
      (∃ it ∈ db.items, it.url = u ∧ it.hidden = true) →
      ∃ it ∈ (applyUpserts lib db calls).items, it.url = u ∧ it.hidden = true := by
  intro calls
  induction calls with
  | nil => intro db h; exact h
  | cons c cs ih =>
    intro db h
    exact ih _ (upsert_preserves_hidden lib db c.now c.url c.source c.title
      c.summary c.published_at c.created_at c.updated_at c.metadata u h)

/-- The external-content search queryset never contains a hidden item. -/
theorem external_content_queryset_no_hidden (source_site : Int → Option Int)
    (db : Db) (site : Option Int) :
    ∀ it ∈ external_content_queryset source_site db site, it.hidden = false := by
  intro it hmem
  unfold external_content_queryset at hmem
  rcases site with _ | sid
  · exact of_decide_eq_true (List.mem_filter.mp hmem).2
  · exact of_decide_eq_true
      (List.mem_filter.mp (List.mem_filter.mp hmem).1).2

/-- C10: an upsert's field overwrite never touches the `hidden` flag (the
overwritten row keeps the old row's `hidden`), so an item an editor has
hidden stays present and hidden across any sequence of re-sync upserts, and
— since the search queryset filters on `hidden = False` — it is excluded
from search results throughout. -/
theorem hidden_item_stays_hidden (lib : PyLib) (db : Db) (u : String)
    (calls : List UpsertCall) (source_site : Int → Option Int)
    (site : Option Int)
    (h : ∃ it ∈ db.items, it.url = u ∧ it.hidden = true) :
    (∀ (now : Int) (nu : String) (src : Option ContentDiscoverySource)
        (ti su : String) (pa ca ua : Option PyDateTime)
        (m : List (String × MetaValue)) (it0 : ExternalContentItem),
      (applyDefaultTags db.tag_table src
        (upsert_row_update lib now nu src ti su pa ca ua m it0)).hidden
        = it0.hidden) ∧
    (∃ it ∈ (applyUpserts lib db calls).items, it.url = u ∧ it.hidden = true) ∧
    (∀ it ∈ external_content_queryset source_site (applyUpserts lib db calls)
        site, it.hidden = false) := by
  refine ⟨?_, applyUpserts_preserves_hidden lib u calls db h,
    external_content_queryset_no_hidden source_site _ site⟩
  intro now nu src ti su pa ca ua m it0
  rw [(applyDefaultTags_preserves db.tag_table src _).2.2.1,
    (upsert_row_update_fields lib now nu src ti su pa ca ua m it0).2.2.2.2.2]

/-- Witness for C10: two re-syncs of the hidden item's URL leave it hidden
and excluded from the search queryset. -/
theorem hidden_item_stays_hidden_witness :
    (∀ (now : Int) (nu : String) (src : Option ContentDiscoverySource)
        (ti su : String) (pa ca ua : Option PyDateTime)
        (m : List (String × MetaValue)) (it0 : ExternalContentItem),
      (applyDefaultTags hiddenDb.tag_table src
        (upsert_row_update libA now nu src ti su pa ca ua m it0)).hidden
        = it0.hidden) ∧
    (∃ it ∈ (applyUpserts libA hiddenDb [resyncCall, resyncCall]).items,
      it.url = "https://h.example/x" ∧ it.hidden = true) ∧
    (∀ it ∈ external_content_queryset (fun _ => Option.none)
        (applyUpserts libA hiddenDb [resyncCall, resyncCall]) Option.none,
      it.hidden = false) :=
  hidden_item_stays_hidden libA hiddenDb "https://h.example/x"
    [resyncCall, resyncCall] (fun _ => Option.none) Option.none
    ⟨hiddenItem, List.mem_singleton.mpr rfl, rfl, rfl⟩

/-- Membership in an insertion is membership in the parts. -/
theorem mem_insertSorted (x z : SearchResultItem) :
    ∀ l : List SearchResultItem, z ∈ insertSorted x l → z = x ∨ z ∈ l := by
  intro l
  induction l with
  | nil =>
    intro h
    rw [insertSorted] at h
    rcases List.mem_singleton.mp h with rfl
    exact Or.inl rfl
  | cons y ys ih =>
    intro h
    rw [insertSorted] at h
    by_cases hc : resultSortKeyLt x y = true
    · rw [if_pos hc] at h
      rcases List.mem_cons.mp h with rfl | h2
      · exact Or.inl rfl
      · exact Or.inr h2
    · rw [if_neg hc] at h
      rcases List.mem_cons.mp h with rfl | h2
      · exact Or.inr (List.mem_cons_self _ _)
      · rcases ih h2 with h3 | h3
        · exact Or.inl h3
        · exact Or.inr (List.mem_cons_of_mem _ h3)

/-- Insertion produces a permutation of consing. -/
theorem insertSorted_perm (x : SearchResultItem) :
    ∀ l : List SearchResultItem, List.Perm (insertSorted x l) (x :: l) := by
  intro l
  induction l with
  | nil => rw [insertSorted]
  | cons y ys ih =>
    rw [insertSorted]
    by_cases hc : resultSortKeyLt x y = true
    · rw [if_pos hc]
    · rw [if_neg hc]
      exact (List.Perm.cons y ih).trans (List.Perm.swap x y ys)

/-- The model of Python `sorted` permutes its input. -/
theorem pySorted_perm (l : List SearchResultItem) :
    List.Perm (pySorted l) l := by
  suffices h : ∀ (l acc : List SearchResultItem),
      List.Perm (l.foldl (fun acc x => insertSorted x acc) acc) (acc ++ l) by
    simpa using h l []
  intro l
  induction l with
  | nil => intro acc; simp
  | cons x xs ih =>
    intro acc
    rw [List.foldl_cons]
    exact (ih _).trans
      (((insertSorted_perm x acc).append_right xs).trans List.perm_middle.symm)

/-- A strict key comparison implies the intended order. -/
theorem resultKeyLe_of_lt (a b : SearchResultItem)
    (h : resultSortKeyLt a b = true) : resultKeyLe a b := by
  unfold resultSortKeyLt at h
  rcases Bool.or_eq_true_iff.mp h with h1 | h1
  · exact Or.inl (of_decide_eq_true h1)
  · rcases Bool.and_eq_true_iff.mp h1 with ⟨h2, h3⟩
    exact Or.inr ⟨of_decide_eq_true h2, le_of_lt (of_decide_eq_true h3)⟩

/-- A failed strict key comparison implies the reverse intended order. -/
theorem resultKeyLe_of_not_lt (a b : SearchResultItem)
    (h : ¬ resultSortKeyLt a b = true) : resultKeyLe b a := by
  unfold resultSortKeyLt at h
  simp only [Bool.or_eq_true_iff, Bool.and_eq_true_iff, decide_eq_true_eq,
    not_or, not_and] at h
  obtain ⟨h1, h2⟩ := h
  rcases lt_trichotomy a.score b.score with h3 | h3 | h3
  · exact Or.inl h3
  · exact Or.inr ⟨h3.symm, le_of_not_lt (h2 h3)⟩
  · exact absurd h3 h1

/-- The intended order is transitive. -/
theorem resultKeyLe_trans (a b c : SearchResultItem)
    (h1 : resultKeyLe a b) (h2 : resultKeyLe b c) : resultKeyLe a c := by
  rcases h1 with h1 | ⟨h1, h1t⟩
  · rcases h2 with h2 | ⟨h2, h2t⟩
    · exact Or.inl (lt_trans h2 h1)
    · exact Or.inl (h2 ▸ h1)
  · rcases h2 with h2 | ⟨h2, h2t⟩
    · exact Or.inl (lt_of_lt_of_le h2 (le_of_eq h1.symm))
    · exact Or.inr ⟨h1.trans h2, le_trans h1t h2t⟩

/-- Insertion preserves sortedness in the intended order. -/
theorem pairwise_insertSorted (x : SearchResultItem) :
    ∀ l : List SearchResultItem, l.Pairwise resultKeyLe →
      (insertSorted x l).Pairwise resultKeyLe := by
  intro l
  induction l with
  | nil =>
    intro _
    rw [insertSorted]
    exact List.pairwise_singleton _ _
  | cons y ys ih =>
    intro hp
    obtain ⟨hy, hys⟩ := List.pairwise_cons.mp hp
    rw [insertSorted]
    by_cases hc : resultSortKeyLt x y = true
    · rw [if_pos hc]
      refine List.pairwise_cons.mpr ⟨?_, hp⟩
      intro z hz
      rcases List.mem_cons.mp hz with rfl | hz2
      · exact resultKeyLe_of_lt x z hc
      · exact resultKeyLe_trans x y z (resultKeyLe_of_lt x y hc) (hy z hz2)
    · rw [if_neg hc]
      refine List.pairwise_cons.mpr ⟨?_, ih hys⟩
      intro z hz
      rcases mem_insertSorted x z ys hz with rfl | hz2
      · exact resultKeyLe_of_not_lt z y hc
      · exact hy z hz2

/-- The model of Python `sorted` sorts by score descending with the
lowercased title as tiebreak. -/
theorem pySorted_pairwise (l : List SearchResultItem) :
    (pySorted l).Pairwise resultKeyLe := by
  suffices h : ∀ (l acc : List SearchResultItem),
      acc.Pairwise resultKeyLe →
      (l.foldl (fun acc x => insertSorted x acc) acc).Pairwise resultKeyLe by
    exact h l [] List.Pairwise.nil
  intro l
  induction l with
  | nil => intro acc h; exact h
  | cons x xs ih =>
    intro acc h
    rw [List.foldl_cons]
    exact ih _ (pairwise_insertSorted x acc h)

/-- The merge loop output is a sublist of its input. -/
theorem mergeLoop_sublist :
    ∀ (l : List SearchResultItem) (seen : List (String × String)),
      List.Sublist (mergeLoop l seen) l := by
  intro l
  induction l with
  | nil => intro seen; exact List.Sublist.refl _
  | cons it rest ih =>
    intro seen
    rw [mergeLoop]
    by_cases hc : itemKey it ∈ seen
    · rw [if_pos hc]
      exact List.Sublist.cons it (ih seen)
    · rw [if_neg hc]
      exact List.Sublist.cons₂ it (ih _)

/-- The merge loop emits pairwise-distinct keys, none of them already seen. -/
theorem mergeLoop_keys :
    ∀ (l : List SearchResultItem) (seen : List (String × String)),
      ((mergeLoop l seen).map itemKey).Nodup ∧
      ∀ k ∈ (mergeLoop l seen).map itemKey, k ∉ seen := by
  intro l
  induction l with
  | nil => intro seen; exact ⟨List.nodup_nil, by simp [mergeLoop]⟩
  | cons it rest ih =>
    intro seen
    rw [mergeLoop]
    by_cases hc : itemKey it ∈ seen
    · rw [if_pos hc]
      exact ih seen
    · rw [if_neg hc]
      obtain ⟨hnd, hns⟩ := ih (itemKey it :: seen)
      constructor
      · rw [List.map_cons]
        refine List.nodup_cons.mpr ⟨?_, hnd⟩
        intro hmem
        exact (hns _ hmem) (List.mem_cons_self _ _)
      · intro k hk
        rw [List.map_cons] at hk
        rcases List.mem_cons.mp hk with rfl | hk2
        · exact hc
        · intro hks
          exact (hns k hk2) (List.mem_cons_of_mem _ hks)

/-- The seen-set merge loop computes keep-first deduplication over the
not-yet-seen items. -/
theorem mergeLoop_eq_dedup :
    ∀ (l : List SearchResultItem) (seen : List (String × String)),
      mergeLoop l seen
        = dedupByKeyFirst (l.filter (fun y => itemKey y ∉ seen)) := by
  intro l
  induction l with
  | nil => intro seen; rw [mergeLoop, List.filter_nil, dedupByKeyFirst]
  | cons it rest ih =>
    intro seen
    rw [mergeLoop, List.filter_cons]
    by_cases hc : itemKey it ∈ seen
    · rw [if_pos hc, if_neg (by simpa using hc)]
      exact ih seen
    · rw [if_neg hc, if_pos (by simpa using hc), dedupByKeyFirst]
      have hf : (rest.filter (fun y => itemKey y ∉ seen)).filter
          (fun y => itemKey y ≠ itemKey it)
          = rest.filter (fun y => itemKey y ∉ itemKey it :: seen) := by
        rw [List.filter_filter]
        refine List.filter_congr ?_
        intro a _
        by_cases h1 : itemKey a = itemKey it
        · simp [h1]
        · simp [h1, List.mem_cons]
      rw [ih (itemKey it :: seen), hf]

/-- C3: the result merger returns the keep-first deduplication (by lowercased
title and URL) of the stable sort of its input by score descending with
case-insensitive title tiebreak; that sort is a permutation of the input, the
output is sorted in the intended order, and no two output elements share a
key. -/
theorem merge_results_spec (results : List SearchResultItem) :
    merge_results results = dedupByKeyFirst (pySorted results) ∧
    List.Perm (pySorted results) results ∧
    (merge_results results).Pairwise resultKeyLe ∧
    ((merge_results results).map itemKey).Nodup := by
  refine ⟨?_, pySorted_perm results, ?_, (mergeLoop_keys (pySorted results) []).1⟩
  · rw [merge_results, mergeLoop_eq_dedup]
    congr 1
    apply List.filter_eq_self.mpr
    intro a _
    simp
  · exact (pySorted_pairwise results).sublist
      (mergeLoop_sublist (pySorted results) [])
